import Mathlib

/-!
Shallow embedding of the simulation core of `you-create/flat-candies`
(`src/js/Game.js`, 429 lines).  Entities are records; the `id` field models
JavaScript object identity (each `new` allocates a fresh id, and `===` /
`Array.prototype.indexOf` compare references, i.e. ids here).  Collections are
lists; per-tick mutation is explicit state passing.  The classes `Sprite`,
`Pellet`, and `BlackHole` are not under `src/`; the operations Game.run calls
on them are modelled from the spec and marked as such.
-/

set_option maxHeartbeats 1000000

/-- A mobile actor (Sprite.js is not under src/; fields follow the spec's data
model §3: nominal `size`, mutable `actualSize`, a `value` set dynamically, and
a position).  Rendering fields (fill/stroke) and movement tuning
(speed/shrink) play no role in any claim and are omitted. -/
structure Sprite where
  id : Nat
  size : Int
  actualSize : Int
  value : Int
  x : Int
  y : Int
deriving DecidableEq, Repr

/-- A pellet (Pellet.js is not under src/; fields follow the spec §3). -/
structure Pellet where
  id : Nat
  size : Int
  value : Int
  x : Int
  y : Int
deriving DecidableEq, Repr

/-- A black hole (BlackHole.js is not under src/; fields follow the spec §3:
`size`, `power`, `lifeSpan` as a remaining-ticks countdown, and a position). -/
structure BlackHole where
  id : Nat
  size : Int
  power : Int
  lifeSpan : Int
  x : Int
  y : Int
deriving DecidableEq, Repr

/-- The configuration object (GameData, an external collaborator per the spec).
Flattened from `data.sprites`, `data.pellets`, `data.blackHoles` as used by
Game.js.  The four eligibility predicates and the derived-value functions are
arbitrary functions, covering every possible predicate outcome.  Dynamic
(function-valued) pellet size/value are modelled by their per-use resolved
values. -/
structure GameData where
  canSuckPellet : BlackHole → Pellet → Bool
  canSuckSprite : BlackHole → Sprite → Bool
  canEatPellet : Sprite → Pellet → Bool
  canEatSprite : Sprite → Sprite → Bool
  /-- `data.sprites.value`, applied by Game.run to a victim's size. -/
  spriteValue : Int → Int
  /-- Modelled from the spec: the drain `suckSprite` applies, derived from the
  hazard's `power` (Sprite.js / BlackHole.js are not under src/). -/
  suckAmount : Int → Int
  /-- Modelled from the spec: the growth `eatPellet` applies, a function of the
  pellet's value (Sprite.js is not under src/). -/
  pelletGrowth : Int → Int
  /-- Modelled from the spec: `control()` reads external input and updates the
  sprite's position only (Sprite.js is not under src/). -/
  control : Sprite → Int × Int
  spawnInterval : Nat
  blackHoleSize : Int
  blackHolePower : Int
  blackHoleLifeSpan : Int
  newPelletsInterval : Nat
  newQuantity : Nat
  pelletSize : Int
  pelletValue : Int

/-- The mutable state owned by a Game (Game.js constructor, lines 23-43, plus
the `started`/`paused` flags set by start/pause/continue).  Staging sets hold
references, i.e. ids.  `nextId` is the allocator modelling JS object identity:
every `new` entity receives a fresh id. -/
structure GameState where
  players : List Sprite
  pellets : List Pellet
  blackHoles : List BlackHole
  eatenPellets : List Nat
  eatenSprites : List Nat
  deadBlackHoles : List Nat
  framesElapsed : Nat
  started : Bool
  paused : Bool
  nextId : Nat
deriving DecidableEq, Repr

/-- Default sprite, used only to totalize positional list access. -/
def spriteDefault : Sprite := ⟨0, 0, 0, 0, 0, 0⟩

/-- JS `Array.prototype.indexOf` keyed by an id projection: the index of the
first element whose id is `i`, or `-1` when absent. -/
def jsIndexOfBy (f : α → Nat) (l : List α) (i : Nat) : Int :=
  match l with
  | [] => -1
  | a :: t =>
    if f a = i then 0
    else
      let r := jsIndexOfBy f t i
      if r < 0 then -1 else r + 1

/-- JS `indexOf` on a list of ids. -/
def jsIndexOf (l : List Nat) (i : Nat) : Int := jsIndexOfBy id l i

/-- JS `Array.prototype.splice(i, 1)`: a negative index counts from the end
(clamped to 0), an index past the end removes nothing. -/
def spliceRemove1 (l : List α) (i : Int) : List α :=
  let start : Nat := if i < 0 then l.length - (-i).toNat else i.toNat
  l.take start ++ l.drop (start + 1)

/-- Modelled from the spec: `BlackHole.display()` is the hazard's once-per-tick
hook; its internal lifespan countdown decrements once per tick the hazard is
alive (spec §4.4; BlackHole.js is not under src/). -/
def blackHoleDisplay (b : BlackHole) : BlackHole :=
  { b with lifeSpan := b.lifeSpan - 1 }

/-- Modelled from the spec: `BlackHole.isDead`, true once the lifespan is
exhausted (spec §4.4; BlackHole.js is not under src/). -/
def blackHoleIsDead (b : BlackHole) : Bool := b.lifeSpan ≤ 0

/-- Modelled from the spec: `suckPellet(pellet, eatenSet)` stages the pellet
into the eaten set, unconditionally (spec §4.4; BlackHole.js is not under
src/). -/
def suckPellet (p : Pellet) (eatenSet : List Nat) : List Nat :=
  eatenSet ++ [p.id]

/-- Modelled from the spec: `suckSprite(sprite)` reduces the sprite's
`actualSize` by an amount derived from the hazard's `power` and does not
remove the sprite (spec §4.4; BlackHole.js is not under src/). -/
def suckSprite (d : GameData) (b : BlackHole) (sp : Sprite) : Sprite :=
  { sp with actualSize := sp.actualSize - d.suckAmount b.power }

/-- Modelled from the spec: `eatPellet(pellet, eatenSet)` increases the
eater's `actualSize` by a function of the pellet's value (spec §4.2;
Sprite.js is not under src/).  The staging append is written at the call
site. -/
def eatPellet (d : GameData) (sp : Sprite) (p : Pellet) : Sprite :=
  { sp with actualSize := sp.actualSize + d.pelletGrowth p.value }

/-- Modelled from the spec: `eatOtherSprite(otherSprite, eatenSet)` increases
the winner's size by `otherSprite.value`, which the caller has just set (spec
§4.2; Sprite.js is not under src/).  The staging append is written at the
call site. -/
def eatOtherSprite (winner victim : Sprite) : Sprite :=
  { winner with actualSize := winner.actualSize + victim.value }

/-- Modelled from the spec: `control()` updates the sprite's position from
external input and touches nothing else (spec §4.2; Sprite.js is not under
src/). -/
def spriteControl (d : GameData) (sp : Sprite) : Sprite :=
  { sp with x := (d.control sp).1, y := (d.control sp).2 }

namespace Game

/-- Game.spawnBlackHole (Game.js lines 193-211): every `interval` frames of
the global animation-loop counter `frameCount` (not `this.framesElapsed`),
push one new black hole and place it at a random position `(rx, ry)`.  JS
`frameCount % 0 === 0` is false (NaN), hence the interval-nonzero guard. -/
def spawnBlackHole (d : GameData) (frameCount : Nat) (rx ry : Int)
    (s : GameState) : GameState :=
  if d.spawnInterval ≠ 0 ∧ frameCount % d.spawnInterval = 0 then
    { s with
      blackHoles := s.blackHoles ++
        [⟨s.nextId, d.blackHoleSize, d.blackHolePower, d.blackHoleLifeSpan,
          rx, ry⟩],
      nextId := s.nextId + 1 }
  else s

/-- One iteration of the hazard loop (Game.js lines 253-288) for the black
hole at position `k`: display it (which ticks its lifespan countdown), stage
every pellet it can suck, drain every sprite it can suck and stage those left
with `actualSize <= 0`, then stage the hole itself if it is dead.  Only the
hole at `k` and the shared players list / staging sets change. -/
def hazardStep (d : GameData) (s : GameState) (k : Nat) : GameState :=
  let b := blackHoleDisplay (s.blackHoles.getD k ⟨0, 0, 0, 0, 0, 0⟩)
  let eatenP := s.pellets.foldl
    (fun acc pel => if d.canSuckPellet b pel then suckPellet pel acc else acc)
    s.eatenPellets
  let r := s.players.foldl
    (fun (acc : List Sprite × List Nat) pl =>
      if d.canSuckSprite b pl then
        let pl := suckSprite d b pl
        (acc.1 ++ [pl],
         if pl.actualSize ≤ 0 then acc.2 ++ [pl.id] else acc.2)
      else (acc.1 ++ [pl], acc.2))
    (([] : List Sprite), s.eatenSprites)
  let deadBH :=
    if blackHoleIsDead b then s.deadBlackHoles ++ [b.id] else s.deadBlackHoles
  { s with
    blackHoles := s.blackHoles.set k b,
    players := r.1,
    eatenPellets := eatenP,
    eatenSprites := r.2,
    deadBlackHoles := deadBH }

/-- The hazard loop (Game.js lines 253-288): `this.blackHoles.forEach`; the
membership of `blackHoles` does not change during the loop, so iterating the
positions of the original array is exact. -/
def hazardPhase (d : GameData) (s : GameState) : GameState :=
  (List.range s.blackHoles.length).foldl (hazardStep d) s

/-- The dead-hazard flush (Game.js lines 292-298).  Translated exactly as
written: the splice index is looked up with
`this.deadBlackHoles.indexOf( blackHole )` — the index of the staged hole in
the *staging* array — and that index is spliced out of the *live*
`this.blackHoles` array. -/
def flushDeadBlackHoles (s : GameState) : GameState :=
  { s with
    blackHoles := s.deadBlackHoles.foldl
      (fun bhs hid => spliceRemove1 bhs (jsIndexOf s.deadBlackHoles hid))
      s.blackHoles,
    deadBlackHoles := [] }

/-- The eaten-pellet flush (Game.js lines 302-308, repeated at 336-342): for
each staged reference, splice the live array at
`this.pellets.indexOf( pellet )`; then clear the staging set. -/
def flushEatenPellets (s : GameState) : GameState :=
  { s with
    pellets := s.eatenPellets.foldl
      (fun ps pid => spliceRemove1 ps (jsIndexOfBy Pellet.id ps pid))
      s.pellets,
    eatenPellets := [] }

/-- Player input (Game.js lines 312-316): `control()` on every live player. -/
def controlPhase (d : GameData) (s : GameState) : GameState :=
  { s with players := s.players.map (spriteControl d) }

/-- The inner pellet scan of the sprite-eats-pellet step (Game.js lines
322-330) for one player: fold over the live pellet list, eating (growing and
staging) every pellet the evolving player qualifies for. -/
def spriteEatPelletStep (d : GameData) (pellets : List Pellet) (sp : Sprite)
    (es : List Nat) : Sprite × List Nat :=
  pellets.foldl
    (fun (acc : Sprite × List Nat) pel =>
      if d.canEatPellet acc.1 pel then (eatPellet d acc.1 pel, acc.2 ++ [pel.id])
      else acc)
    (sp, es)

/-- The sprite-eats-pellet step (Game.js lines 320-332): each player in order
scans the live pellet list (which is not mutated during the scan); only that
player's record and the shared staging set change per iteration. -/
def spriteEatPelletPhase (d : GameData) (s : GameState) : GameState :=
  let r := s.players.foldl
    (fun (acc : List Sprite × List Nat) sp =>
      let q := spriteEatPelletStep d s.pellets sp acc.2
      (acc.1 ++ [q.1], q.2))
    (([] : List Sprite), s.eatenPellets)
  { s with players := r.1, eatenPellets := r.2 }

/-- One pair check of the sprite-eats-sprite step (Game.js lines 350-360) for
positions `i < j`: if `canEatSprite(players[i], players[j])`, set the victim's
`value` to `data.sprites.value( victim.size )`, let the winner eat it and
stage it; else try the reverse direction; else nothing.  Alongside the state
an event `(i, j, dir)` is recorded, `dir = true` meaning the first-checked
direction (`players[i]` eats `players[j]`) won. -/
def pairStep (d : GameData) (i j : Nat)
    (acc : GameState × List (Nat × Nat × Bool)) :
    GameState × List (Nat × Nat × Bool) :=
  let s := acc.1
  let a := s.players.getD i spriteDefault
  let b := s.players.getD j spriteDefault
  if d.canEatSprite a b then
    let b := { b with value := d.spriteValue b.size }
    let a := eatOtherSprite a b
    ({ s with players := (s.players.set j b).set i a,
              eatenSprites := s.eatenSprites ++ [b.id] },
     acc.2 ++ [(i, j, true)])
  else if d.canEatSprite b a then
    let a := { a with value := d.spriteValue a.size }
    let b := eatOtherSprite b a
    ({ s with players := (s.players.set j b).set i a,
              eatenSprites := s.eatenSprites ++ [a.id] },
     acc.2 ++ [(i, j, false)])
  else acc

/-- The sprite-eats-sprite step (Game.js lines 346-364) with its event trace:
`this.players.forEach( ( player, i ) => this.players.slice( i + 1 ).forEach`
visits exactly the position pairs `i < j`; membership of `players` does not
change during the step, so positional access to the evolving records is
exact. -/
def spriteEatSpritePhaseEv (d : GameData) (s : GameState) :
    GameState × List (Nat × Nat × Bool) :=
  let n := s.players.length
  (List.range n).foldl
    (fun acc i =>
      ((List.range n).drop (i + 1)).foldl (fun acc j => pairStep d i j acc) acc)
    (s, [])

/-- The sprite-eats-sprite step as run executes it (the event trace is ghost
instrumentation). -/
def spriteEatSpritePhase (d : GameData) (s : GameState) : GameState :=
  (spriteEatSpritePhaseEv d s).1

/-- The eaten-sprite flush (Game.js lines 368-374): splice the live player
array at `this.players.indexOf( sprite )` for each staged reference; clear
the staging set. -/
def flushEatenSprites (s : GameState) : GameState :=
  { s with
    players := s.eatenSprites.foldl
      (fun ps sid => spliceRemove1 ps (jsIndexOfBy Sprite.id ps sid))
      s.players,
    eatenSprites := [] }

/-- Game.placePellets (Game.js lines 145-168): push `qty` new pellets with
configured size/value, placed at externally random positions `pos k`.  Each
`new Pellet` allocates a fresh identity. -/
def placePellets (d : GameData) (pos : Nat → Int × Int) (qty : Nat)
    (s : GameState) : GameState :=
  (List.range qty).foldl
    (fun st k =>
      { st with
        pellets := st.pellets ++
          [⟨st.nextId, d.pelletSize, d.pelletValue, (pos k).1, (pos k).2⟩],
        nextId := st.nextId + 1 })
    s

/-- Game.placeNewPellets (Game.js lines 178-186): every
`newPelletsInterval` ticks of `this.framesElapsed`, place `newQuantity` new
pellets.  JS `x % 0 === 0` is false, hence the interval-nonzero guard. -/
def placeNewPellets (d : GameData) (pos : Nat → Int × Int) (s : GameState) :
    GameState :=
  if d.newPelletsInterval ≠ 0 ∧ s.framesElapsed % d.newPelletsInterval = 0
  then placePellets d pos d.newQuantity s
  else s

/-- Game.start (Game.js lines 216-230): with at least one player and one
pellet, set `started` and clear `paused`; otherwise only report a warning
(the Bool result) and change nothing. -/
def start (s : GameState) : GameState × Bool :=
  if 0 < s.players.length ∧ 0 < s.pellets.length then
    ({ s with started := true, paused := false }, false)
  else (s, true)

/-- Game.run (Game.js lines 237-396), one tick: no-op unless started and not
paused; otherwise spawn, hazard loop, flush dead hazards, flush eaten
pellets, player input, sprite-eats-pellet, flush eaten pellets,
sprite-eats-sprite, flush eaten sprites, render (state-free), replenish
pellets.  `frameCount` is the global animation-loop counter read by
spawnBlackHole; `rx ry` and `pos` are the external randomness used for
placement. -/
def run (d : GameData) (frameCount : Nat) (rx ry : Int)
    (pos : Nat → Int × Int) (s : GameState) : GameState :=
  if !s.started || s.paused then s
  else
    placeNewPellets d pos <|
    flushEatenSprites <|
    spriteEatSpritePhase d <|
    flushEatenPellets <|
    spriteEatPelletPhase d <|
    controlPhase d <|
    flushEatenPellets <|
    flushDeadBlackHoles <|
    hazardPhase d <|
    spawnBlackHole d frameCount rx ry s

/-- Game.update (Game.js lines 403-407). -/
def update (frameCount : Nat) (s : GameState) : GameState :=
  { s with framesElapsed := frameCount }

/-- Game.pause (Game.js lines 415-419). -/
def pause (s : GameState) : GameState := { s with paused := true }

/-- Game.continue (Game.js lines 424-428); `continue` is a Lean keyword, so
the definition carries a suffix. -/
def continueGame (s : GameState) : GameState := { s with paused := false }

end Game

/-! ### Concrete fixtures used by counterexamples and witnesses -/

/-- A trivial external randomness source for pellet placement. -/
def exPos : Nat → Int × Int := fun _ => (0, 0)

/-- A base configuration: no predicate ever fires, identity value functions. -/
def dataBase : GameData :=
  { canSuckPellet := fun _ _ => false
    canSuckSprite := fun _ _ => false
    canEatPellet := fun _ _ => false
    canEatSprite := fun _ _ => false
    spriteValue := fun v => v
    suckAmount := fun _ => 0
    pelletGrowth := fun v => v
    control := fun sp => (sp.x, sp.y)
    spawnInterval := 3
    blackHoleSize := 50
    blackHolePower := 10
    blackHoleLifeSpan := 5
    newPelletsInterval := 0
    newQuantity := 0
    pelletSize := 5
    pelletValue := 1 }

/-- A base running state with empty collections. -/
def stateBase : GameState :=
  { players := []
    pellets := []
    blackHoles := []
    eatenPellets := []
    eatenSprites := []
    deadBlackHoles := []
    framesElapsed := 1
    started := true
    paused := false
    nextId := 100 }

/-- C1 fixture: two live black holes; the one with id 2 dies this tick. -/
def c1State : GameState :=
  { stateBase with blackHoles := [⟨1, 50, 10, 5, 0, 0⟩, ⟨2, 50, 10, 1, 0, 0⟩] }

/-- C4 fixture: a game whose own counter satisfies the spawn condition. -/
def c4Data : GameData := { dataBase with spawnInterval := 2 }

/-- C4 fixture state: `framesElapsed = 0`, so `framesElapsed % 2 = 0`. -/
def c4State : GameState := { stateBase with framesElapsed := 0 }

/-- C7/C10 fixture: one placed player and one pellet, game not yet started. -/
def c7State : GameState :=
  { stateBase with
    players := [⟨1, 20, 20, 0, 10, 10⟩]
    pellets := [⟨2, 5, 1, 10, 10⟩]
    started := false }

/-- C10 fixture: a started, currently paused game with entities present. -/
def c10State : GameState :=
  { stateBase with
    players := [⟨1, 20, 20, 0, 10, 10⟩]
    pellets := [⟨2, 5, 1, 10, 10⟩]
    started := true
    paused := true }

/-- C3 counterexample fixture: sprite 1 can eat sprite 2. -/
def c3Data : GameData :=
  { dataBase with canEatSprite := fun a b => a.id == 1 && b.id == 2 }

/-- C3 counterexample state: two sprites, one pellet, no hazards; sprite 2 has
`actualSize = 5 > 0`. -/
def c3State : GameState :=
  { stateBase with
    players := [⟨1, 20, 20, 0, 0, 0⟩, ⟨2, 10, 5, 0, 0, 0⟩]
    pellets := [⟨3, 5, 1, 0, 0⟩] }

/-- C3 witness fixture: a hazard that drains sprite 1 by 100 per tick. -/
def c3wData : GameData :=
  { dataBase with
    canSuckSprite := fun _ sp => sp.id == 1
    suckAmount := fun _ => 100 }

/-- C3 witness state: sprite 1 (actualSize 50) next to a live hazard. -/
def c3wState : GameState :=
  { stateBase with
    players := [⟨1, 20, 50, 0, 0, 0⟩, ⟨2, 20, 50, 0, 0, 0⟩]
    blackHoles := [⟨5, 50, 10, 3, 0, 0⟩] }

/-- C2 counterexample fixture: every sprite is eligible for pellet 10 and for
nothing else. -/
def c2Data : GameData :=
  { dataBase with canEatPellet := fun _ p => p.id == 10 }

/-- C2 state: two players, two pellets (ids 10 and 11). -/
def c2State : GameState :=
  { stateBase with
    players := [⟨1, 20, 20, 0, 0, 0⟩, ⟨2, 20, 20, 0, 0, 0⟩]
    pellets := [⟨10, 5, 1, 0, 0⟩, ⟨11, 5, 1, 0, 0⟩] }

/-- C2 witness fixture: only sprite 1 is eligible, and only for pellet 10. -/
def c2wData : GameData :=
  { dataBase with canEatPellet := fun sp p => sp.id == 1 && p.id == 10 }

/-- C5 fixture state: victim sprite 2 has nominal size 10 but current
actualSize 50 at the moment sprite 1 consumes it. -/
def c5State : GameState :=
  { stateBase with
    players := [⟨1, 20, 30, 0, 0, 0⟩, ⟨2, 10, 50, 0, 0, 0⟩] }

/-- The per-sprite effect of one hazard's sprite scan (characterizes the loop
at Game.js lines 267-280): drained when eligible, untouched otherwise. -/
def hazSuck (d : GameData) (b : BlackHole) (pl : Sprite) : Sprite :=
  if d.canSuckSprite b pl then suckSprite d b pl else pl

/-- The ids one hazard's sprite scan stages from one player: staged exactly
when eligible and drained to `actualSize <= 0`. -/
def hazStage (d : GameData) (b : BlackHole) (pl : Sprite) : List Nat :=
  if d.canSuckSprite b pl then
    (if (suckSprite d b pl).actualSize ≤ 0 then [(suckSprite d b pl).id]
     else [])
  else []

/-- The sprite one player's pellet scan produces. -/
def eatResult (d : GameData) (pellets : List Pellet) (sp : Sprite) : Sprite :=
  (Game.spriteEatPelletStep d pellets sp []).1

/-- The pellet ids one player's pellet scan stages. -/
def eatStaged (d : GameData) (pellets : List Pellet) (sp : Sprite) :
    List Nat :=
  (Game.spriteEatPelletStep d pellets sp []).2

/-- The position pairs `(i, j)`, `i < j < n`, in the visit order of the
sprite-eats-sprite step. -/
def allPairs (n : Nat) : List (Nat × Nat) :=
  (List.range n).flatMap
    (fun i => ((List.range n).drop (i + 1)).map (fun j => (i, j)))

/-- How many events of the sprite-eats-sprite trace concern the position pair
`(i, j)` (events are always tagged with `i < j`; the Bool is the winning
direction). -/
def countPair (evs : List (Nat × Nat × Bool)) (i j : Nat) : Nat :=
  (evs.filter (fun e => e.1 == i && e.2.1 == j)).length

/-! ### Helper lemmas -/

/-- Fold invariant: a property preserved by every step holds of the fold. -/
theorem foldl_invariant {σ ι : Type _} (step : σ → ι → σ) (P : σ → Prop)
    (l : List ι) (init : σ) (h0 : P init)
    (hstep : ∀ st i, P st → P (step st i)) :
    P (l.foldl step init) := by
  induction l generalizing init with
  | nil => exact h0
  | cons a t ih => exact ih _ (hstep _ _ h0)

/-! ### C7 -/

/-- C7: `start()` transitions the game to running exactly when the players
collection and the pellets collection are both non-empty; with zero players
or zero pellets it only reports a warning and leaves the game state
unchanged. -/
theorem c7_start_precondition (s t : GameState)
    (h1 : 0 < s.players.length) (h2 : 0 < s.pellets.length)
    (h3 : t.players.length = 0 ∨ t.pellets.length = 0) :
    Game.start s = ({ s with started := true, paused := false }, false) ∧
    Game.start t = (t, true) := by
  constructor
  · simp [Game.start, h1, h2]
  · have : ¬ (0 < t.players.length ∧ 0 < t.pellets.length) := by
      rcases h3 with h | h <;> simp [h]
    simp [Game.start, this]

/-- C7 witness: a ready game with one player and one pellet starts; the empty
game does not. -/
theorem c7_start_precondition_witness :
    (0 < c7State.players.length ∧ 0 < c7State.pellets.length ∧
      (stateBase.players.length = 0 ∨ stateBase.pellets.length = 0)) ∧
    (Game.start c7State =
        ({ c7State with started := true, paused := false }, false) ∧
      Game.start stateBase = (stateBase, true)) :=
  ⟨⟨by decide, by decide, by decide⟩,
    c7_start_precondition c7State stateBase (by decide) (by decide)
      (by decide)⟩

/-! ### C8 -/

/-- C8: when the game is not started or is paused, `run()` leaves every field
of the game unchanged. -/
theorem c8_tick_noop (d : GameData) (fc : Nat) (rx ry : Int)
    (pos : Nat → Int × Int) (s : GameState)
    (h : s.started = false ∨ s.paused = true) :
    Game.run d fc rx ry pos s = s := by
  rcases h with h | h <;> simp [Game.run, h]

/-- C8 witness: a not-yet-started game is untouched by `run()`. -/
theorem c8_tick_noop_witness :
    (c7State.started = false ∨ c7State.paused = true) ∧
    Game.run dataBase 1 0 0 exPos c7State = c7State :=
  ⟨by decide, c8_tick_noop dataBase 1 0 0 exPos c7State (by decide)⟩

/-! ### C10 -/

/-- C10: with at least one player and one pellet, `start()` always clears the
paused flag; on a previously started, paused game it is exactly
`continue()`. -/
theorem c10_start_resumes (s : GameState)
    (h1 : 0 < s.players.length) (h2 : 0 < s.pellets.length)
    (h3 : s.started = true) (h4 : s.paused = true) :
    (Game.start s).1.paused = false ∧
    (Game.start s).1 = Game.continueGame s := by
  refine ⟨by simp [Game.start, h1, h2], ?_⟩
  simp only [Game.start, h1, h2, and_self, if_pos]
  cases s
  simp_all [Game.continueGame]

/-- C10 witness: starting a paused, started game resumes it. -/
theorem c10_start_resumes_witness :
    (0 < c10State.players.length ∧ 0 < c10State.pellets.length ∧
      c10State.started = true ∧ c10State.paused = true) ∧
    ((Game.start c10State).1.paused = false ∧
      (Game.start c10State).1 = Game.continueGame c10State) :=
  ⟨⟨by decide, by decide, by decide, by decide⟩,
    c10_start_resumes c10State (by decide) (by decide) (by decide) (by decide)⟩

/-! ### C1 -/

/-- C1 (code bug): the dead-hazard flush looks the staged hole up in the
staging array instead of the live array.  On a tick where hole 2 (lifespan 1)
dies while hole 1 (lifespan 5) stays alive, the staged set is exactly `[2]`,
yet `run()` removes live hole 1 and keeps the dead hole 2. -/
theorem c1_flush_eval :
    (Game.hazardPhase dataBase (Game.spawnBlackHole dataBase 1 0 0 c1State)
        ).deadBlackHoles = [2] ∧
    (Game.run dataBase 1 0 0 exPos c1State).blackHoles.map BlackHole.id =
      [2] := by decide

/-! ### C4 -/

/-- C4 counterexample: a tick in which the game's own counter satisfies
`framesElapsed % spawnInterval = 0` but the global animation-loop counter
`frameCount = 1` does not; no black hole is spawned, refuting the claim that
the spawn condition is checked against `framesElapsed`. -/
theorem c4_counterexample :
    c4State.framesElapsed % c4Data.spawnInterval = 0 ∧
    (Game.run c4Data 1 0 0 exPos c4State).blackHoles = [] := by decide

/-- Removing one element (JS `splice(i, 1)`) yields a sublist. -/
theorem spliceRemove1_sublist (l : List α) (i : Int) :
    List.Sublist (spliceRemove1 l i) l := by
  unfold spliceRemove1
  set st := (if i < 0 then l.length - (-i).toNat else i.toNat) with hst
  have h1 : List.Sublist (l.drop (st + 1)) (l.drop st) := by
    have h2 := List.drop_sublist 1 (l.drop st)
    rwa [List.drop_drop] at h2
  have h3 := h1.append_left (l.take st)
  rwa [List.take_append_drop] at h3

/-- Membership in a mapped sublist reflects to the larger list. -/
theorem not_mem_map_of_sublist (f : α → β) {l' l : List α}
    (h : List.Sublist l' l) {i : β} (hi : i ∉ l.map f) : i ∉ l'.map f :=
  fun hm => hi ((h.map f).subset hm)

/-- `indexOf` of a present id is non-negative. -/
theorem jsIndexOfBy_nonneg_of_mem (f : α → Nat) (i : Nat) :
    ∀ l : List α, i ∈ l.map f → 0 ≤ jsIndexOfBy f l i := by
  intro l
  induction l with
  | nil => simp
  | cons a t ih =>
    intro hm
    by_cases ha : f a = i
    · simp [jsIndexOfBy, ha]
    · have hm' : i ∈ t.map f := by
        rcases List.mem_cons.mp hm with h | h
        · exact absurd h.symm ha
        · exact h
      have hnn := ih hm'
      simp only [jsIndexOfBy, if_neg ha]
      rw [if_neg (by omega : ¬ jsIndexOfBy f t i < 0)]
      omega

/-- Splicing at a shifted non-negative index skips the head. -/
theorem spliceRemove1_cons_succ (a : α) (t : List α) (r : Int) (h : 0 ≤ r) :
    spliceRemove1 (a :: t) (r + 1) = a :: spliceRemove1 t r := by
  unfold spliceRemove1
  rw [if_neg (by omega : ¬ r + 1 < 0), if_neg (by omega : ¬ r < 0)]
  rw [(by omega : (r + 1).toNat = r.toNat + 1)]
  simp [List.take_succ_cons, List.drop_succ_cons]

/-- Under unique ids, the JS removal idiom
`l.splice( l.indexOf( x ), 1 )` removes exactly the element with id `i` when
one is present. -/
theorem removeById_eq_filter (f : α → Nat) (i : Nat) :
    ∀ l : List α, (l.map f).Nodup → i ∈ l.map f →
      spliceRemove1 l (jsIndexOfBy f l i) =
        l.filter (fun x => !(f x == i)) := by
  intro l
  induction l with
  | nil => simp
  | cons a t ih =>
    intro hnd hm
    rw [List.map_cons, List.nodup_cons] at hnd
    by_cases ha : f a = i
    · have hnin : i ∉ t.map f := ha ▸ hnd.1
      have ht : t.filter (fun x => !(f x == i)) = t := by
        rw [List.filter_eq_self]
        intro x hx
        simp only [Bool.not_eq_eq_eq_not, Bool.not_true, beq_eq_false_iff_ne]
        intro hfx
        exact hnin (hfx ▸ List.mem_map_of_mem f hx)
      simp [jsIndexOfBy, ha, spliceRemove1, ht]
    · have hm' : i ∈ t.map f := by
        rcases List.mem_cons.mp hm with h | h
        · exact absurd h.symm ha
        · exact h
      have hnn := jsIndexOfBy_nonneg_of_mem f i t hm'
      have hidx : jsIndexOfBy f (a :: t) i = jsIndexOfBy f t i + 1 := by
        simp only [jsIndexOfBy, if_neg ha]
        rw [if_neg (by omega : ¬ jsIndexOfBy f t i < 0)]
      rw [hidx, spliceRemove1_cons_succ a t _ hnn, ih hnd.2 hm']
      simp [ha]

/-- Under unique ids, the JS removal idiom eliminates id `i` whether or not it
was present (when absent, `splice(-1, 1)` drops the last element, which in
particular does not introduce `i`). -/
theorem removeById_not_mem_map (f : α → Nat) (i : Nat) (l : List α)
    (hnd : (l.map f).Nodup) :
    i ∉ (spliceRemove1 l (jsIndexOfBy f l i)).map f := by
  by_cases hm : i ∈ l.map f
  · rw [removeById_eq_filter f i l hnd hm]
    intro hx
    obtain ⟨x, hx1, hx2⟩ := List.mem_map.mp hx
    have := (List.mem_filter.mp hx1).2
    simp only [Bool.not_eq_eq_eq_not, Bool.not_true, beq_eq_false_iff_ne] at this
    exact this hx2
  · exact not_mem_map_of_sublist f (spliceRemove1_sublist _ _) hm

/-- A whole flush fold produces a sublist of the live collection. -/
theorem flushFold_sublist (f : α → Nat) (staged : List Nat) (l : List α) :
    List.Sublist
      (staged.foldl (fun ps pid => spliceRemove1 ps (jsIndexOfBy f ps pid)) l)
      l := by
  refine foldl_invariant _ (fun ps => List.Sublist ps l) _ _ ?_ ?_
  · exact List.Sublist.refl l
  · intro st pid hst
    exact (spliceRemove1_sublist st (jsIndexOfBy f st pid)).trans hst

/-- Every staged id is gone after the flush fold (given unique ids in the live
collection). -/
theorem flushFold_not_mem (f : α → Nat) (staged : List Nat) :
    ∀ l : List α, (l.map f).Nodup → ∀ i ∈ staged,
      i ∉ ((staged.foldl
        (fun ps pid => spliceRemove1 ps (jsIndexOfBy f ps pid)) l).map f) := by
  induction staged with
  | nil => simp
  | cons h t ih =>
    intro l hnd i hi
    rw [List.foldl_cons]
    have hsub : List.Sublist (spliceRemove1 l (jsIndexOfBy f l h)) l :=
      spliceRemove1_sublist _ _
    have hnd' :
        ((spliceRemove1 l (jsIndexOfBy f l h)).map f).Nodup :=
      hnd.sublist (hsub.map f)
    rcases List.mem_cons.mp hi with rfl | hit
    · exact not_mem_map_of_sublist f (flushFold_sublist f t _)
        (removeById_not_mem_map f i l hnd)
    · exact ih _ hnd' i hit

/-- Exact characterization of the flush fold: when the staged ids are distinct
and all present, the flush removes exactly the staged elements. -/
theorem flushFold_filter (f : α → Nat) (staged : List Nat) :
    ∀ l : List α, (l.map f).Nodup → staged.Nodup →
      (∀ i ∈ staged, i ∈ l.map f) →
      staged.foldl (fun ps pid => spliceRemove1 ps (jsIndexOfBy f ps pid)) l
        = l.filter (fun x => !(staged.contains (f x))) := by
  induction staged with
  | nil =>
    intro l _ _ _
    simp
  | cons h t ih =>
    intro l hnd hstnd hsub
    rw [List.foldl_cons,
      removeById_eq_filter f h l hnd (hsub h (List.mem_cons_self h t))]
    rw [List.nodup_cons] at hstnd
    have hnd' : ((l.filter (fun x => !(f x == h))).map f).Nodup :=
      hnd.sublist ((List.filter_sublist l).map f)
    have hsub' : ∀ i ∈ t, i ∈ (l.filter (fun x => !(f x == h))).map f := by
      intro i hit
      obtain ⟨x, hx, hfx⟩ := List.mem_map.mp (hsub i (List.mem_cons_of_mem h hit))
      refine List.mem_map.mpr ⟨x, List.mem_filter.mpr ⟨hx, ?_⟩, hfx⟩
      simp only [Bool.not_eq_eq_eq_not, Bool.not_true, beq_eq_false_iff_ne]
      intro hxh
      exact hstnd.1 (by rw [← hfx, hxh] at hit; exact hit)
    rw [ih _ hnd' hstnd.2 hsub', List.filter_filter]
    apply List.filter_congr
    intro x _
    simp only [List.contains_cons]
    cases hxh : (f x == h) <;> simp [hxh]

/-! ### Field-projection lemmas for the pipeline phases -/

theorem spawnBlackHole_players (d : GameData) (fc : Nat) (rx ry : Int)
    (s : GameState) : (Game.spawnBlackHole d fc rx ry s).players = s.players := by
  unfold Game.spawnBlackHole; split <;> rfl

theorem spawnBlackHole_pellets (d : GameData) (fc : Nat) (rx ry : Int)
    (s : GameState) : (Game.spawnBlackHole d fc rx ry s).pellets = s.pellets := by
  unfold Game.spawnBlackHole; split <;> rfl

theorem spawnBlackHole_eatenPellets (d : GameData) (fc : Nat) (rx ry : Int)
    (s : GameState) :
    (Game.spawnBlackHole d fc rx ry s).eatenPellets = s.eatenPellets := by
  unfold Game.spawnBlackHole; split <;> rfl

theorem spawnBlackHole_eatenSprites (d : GameData) (fc : Nat) (rx ry : Int)
    (s : GameState) :
    (Game.spawnBlackHole d fc rx ry s).eatenSprites = s.eatenSprites := by
  unfold Game.spawnBlackHole; split <;> rfl

theorem spawnBlackHole_deadBlackHoles (d : GameData) (fc : Nat) (rx ry : Int)
    (s : GameState) :
    (Game.spawnBlackHole d fc rx ry s).deadBlackHoles = s.deadBlackHoles := by
  unfold Game.spawnBlackHole; split <;> rfl

theorem spawnBlackHole_blackHoles_length (d : GameData) (fc : Nat)
    (rx ry : Int) (s : GameState) :
    (Game.spawnBlackHole d fc rx ry s).blackHoles.length =
      s.blackHoles.length +
        (if d.spawnInterval ≠ 0 ∧ fc % d.spawnInterval = 0 then 1 else 0) := by
  unfold Game.spawnBlackHole
  split
  · simp
  · simp [*]

theorem hazardStep_pellets (d : GameData) (s : GameState) (k : Nat) :
    (Game.hazardStep d s k).pellets = s.pellets := rfl

theorem hazardStep_framesElapsed (d : GameData) (s : GameState) (k : Nat) :
    (Game.hazardStep d s k).framesElapsed = s.framesElapsed := rfl

theorem hazardStep_blackHoles_length (d : GameData) (s : GameState) (k : Nat) :
    (Game.hazardStep d s k).blackHoles.length = s.blackHoles.length := by
  simp [Game.hazardStep]

theorem hazardPhase_pellets (d : GameData) (s : GameState) :
    (Game.hazardPhase d s).pellets = s.pellets := by
  unfold Game.hazardPhase
  refine foldl_invariant _ (fun st : GameState => st.pellets = s.pellets) _ _
    rfl ?_
  intro st k h
  show (Game.hazardStep d st k).pellets = s.pellets
  rw [hazardStep_pellets]; exact h

theorem hazardPhase_blackHoles_length (d : GameData) (s : GameState) :
    (Game.hazardPhase d s).blackHoles.length = s.blackHoles.length := by
  unfold Game.hazardPhase
  refine foldl_invariant _
    (fun st : GameState => st.blackHoles.length = s.blackHoles.length) _ _
    rfl ?_
  intro st k h
  show (Game.hazardStep d st k).blackHoles.length = s.blackHoles.length
  rw [hazardStep_blackHoles_length]; exact h

theorem flushDeadBlackHoles_players (s : GameState) :
    (Game.flushDeadBlackHoles s).players = s.players := rfl

theorem flushDeadBlackHoles_pellets (s : GameState) :
    (Game.flushDeadBlackHoles s).pellets = s.pellets := rfl

theorem flushDeadBlackHoles_eatenPellets (s : GameState) :
    (Game.flushDeadBlackHoles s).eatenPellets = s.eatenPellets := rfl

theorem flushDeadBlackHoles_eatenSprites (s : GameState) :
    (Game.flushDeadBlackHoles s).eatenSprites = s.eatenSprites := rfl

theorem flushDeadBlackHoles_deadBlackHoles (s : GameState) :
    (Game.flushDeadBlackHoles s).deadBlackHoles = [] := rfl

theorem flushDeadBlackHoles_framesElapsed (s : GameState) :
    (Game.flushDeadBlackHoles s).framesElapsed = s.framesElapsed := rfl

theorem flushDeadBlackHoles_blackHoles_of_empty (s : GameState)
    (h : s.deadBlackHoles = []) :
    (Game.flushDeadBlackHoles s).blackHoles = s.blackHoles := by
  simp [Game.flushDeadBlackHoles, h]

theorem flushEatenPellets_players (s : GameState) :
    (Game.flushEatenPellets s).players = s.players := rfl

theorem flushEatenPellets_blackHoles (s : GameState) :
    (Game.flushEatenPellets s).blackHoles = s.blackHoles := rfl

theorem flushEatenPellets_eatenPellets (s : GameState) :
    (Game.flushEatenPellets s).eatenPellets = [] := rfl

theorem flushEatenPellets_eatenSprites (s : GameState) :
    (Game.flushEatenPellets s).eatenSprites = s.eatenSprites := rfl

theorem flushEatenPellets_deadBlackHoles (s : GameState) :
    (Game.flushEatenPellets s).deadBlackHoles = s.deadBlackHoles := rfl

theorem flushEatenPellets_framesElapsed (s : GameState) :
    (Game.flushEatenPellets s).framesElapsed = s.framesElapsed := rfl

theorem controlPhase_pellets (d : GameData) (s : GameState) :
    (Game.controlPhase d s).pellets = s.pellets := rfl

theorem controlPhase_blackHoles (d : GameData) (s : GameState) :
    (Game.controlPhase d s).blackHoles = s.blackHoles := rfl

theorem controlPhase_eatenPellets (d : GameData) (s : GameState) :
    (Game.controlPhase d s).eatenPellets = s.eatenPellets := rfl

theorem controlPhase_eatenSprites (d : GameData) (s : GameState) :
    (Game.controlPhase d s).eatenSprites = s.eatenSprites := rfl

theorem controlPhase_deadBlackHoles (d : GameData) (s : GameState) :
    (Game.controlPhase d s).deadBlackHoles = s.deadBlackHoles := rfl

theorem controlPhase_framesElapsed (d : GameData) (s : GameState) :
    (Game.controlPhase d s).framesElapsed = s.framesElapsed := rfl

theorem spriteEatPelletPhase_pellets (d : GameData) (s : GameState) :
    (Game.spriteEatPelletPhase d s).pellets = s.pellets := rfl

theorem spriteEatPelletPhase_blackHoles (d : GameData) (s : GameState) :
    (Game.spriteEatPelletPhase d s).blackHoles = s.blackHoles := rfl

theorem spriteEatPelletPhase_eatenSprites (d : GameData) (s : GameState) :
    (Game.spriteEatPelletPhase d s).eatenSprites = s.eatenSprites := rfl

theorem spriteEatPelletPhase_deadBlackHoles (d : GameData) (s : GameState) :
    (Game.spriteEatPelletPhase d s).deadBlackHoles = s.deadBlackHoles := rfl

theorem spriteEatPelletPhase_framesElapsed (d : GameData) (s : GameState) :
    (Game.spriteEatPelletPhase d s).framesElapsed = s.framesElapsed := rfl

theorem pairStep_pellets (d : GameData) (i j : Nat)
    (acc : GameState × List (Nat × Nat × Bool)) :
    (Game.pairStep d i j acc).1.pellets = acc.1.pellets := by
  simp only [Game.pairStep]
  split
  · rfl
  · split <;> rfl

theorem pairStep_blackHoles (d : GameData) (i j : Nat)
    (acc : GameState × List (Nat × Nat × Bool)) :
    (Game.pairStep d i j acc).1.blackHoles = acc.1.blackHoles := by
  simp only [Game.pairStep]
  split
  · rfl
  · split <;> rfl

theorem pairStep_eatenPellets (d : GameData) (i j : Nat)
    (acc : GameState × List (Nat × Nat × Bool)) :
    (Game.pairStep d i j acc).1.eatenPellets = acc.1.eatenPellets := by
  simp only [Game.pairStep]
  split
  · rfl
  · split <;> rfl

theorem pairStep_deadBlackHoles (d : GameData) (i j : Nat)
    (acc : GameState × List (Nat × Nat × Bool)) :
    (Game.pairStep d i j acc).1.deadBlackHoles = acc.1.deadBlackHoles := by
  simp only [Game.pairStep]
  split
  · rfl
  · split <;> rfl

theorem pairStep_framesElapsed (d : GameData) (i j : Nat)
    (acc : GameState × List (Nat × Nat × Bool)) :
    (Game.pairStep d i j acc).1.framesElapsed = acc.1.framesElapsed := by
  simp only [Game.pairStep]
  split
  · rfl
  · split <;> rfl

/-- Any property preserved by every pair check holds after the whole
sprite-eats-sprite step. -/
theorem spriteEatSpritePhaseEv_invariant (d : GameData) (s : GameState)
    (P : GameState × List (Nat × Nat × Bool) → Prop) (h0 : P (s, []))
    (hstep : ∀ i j acc, P acc → P (Game.pairStep d i j acc)) :
    P (Game.spriteEatSpritePhaseEv d s) := by
  unfold Game.spriteEatSpritePhaseEv
  refine foldl_invariant _ (fun acc => P acc) _ _ h0 ?_
  intro st i hst
  exact foldl_invariant _ (fun acc => P acc) _ _ hst
    (fun st' j h' => hstep i j st' h')

theorem spriteEatSpritePhase_pellets (d : GameData) (s : GameState) :
    (Game.spriteEatSpritePhase d s).pellets = s.pellets :=
  spriteEatSpritePhaseEv_invariant d s (fun acc => acc.1.pellets = s.pellets)
    rfl
    (fun i j acc h => by
      show (Game.pairStep d i j acc).1.pellets = s.pellets
      rw [pairStep_pellets]; exact h)

theorem spriteEatSpritePhase_blackHoles (d : GameData) (s : GameState) :
    (Game.spriteEatSpritePhase d s).blackHoles = s.blackHoles :=
  spriteEatSpritePhaseEv_invariant d s
    (fun acc => acc.1.blackHoles = s.blackHoles) rfl
    (fun i j acc h => by
      show (Game.pairStep d i j acc).1.blackHoles = s.blackHoles
      rw [pairStep_blackHoles]; exact h)

theorem spriteEatSpritePhase_eatenPellets (d : GameData) (s : GameState) :
    (Game.spriteEatSpritePhase d s).eatenPellets = s.eatenPellets :=
  spriteEatSpritePhaseEv_invariant d s
    (fun acc => acc.1.eatenPellets = s.eatenPellets) rfl
    (fun i j acc h => by
      show (Game.pairStep d i j acc).1.eatenPellets = s.eatenPellets
      rw [pairStep_eatenPellets]; exact h)

theorem spriteEatSpritePhase_deadBlackHoles (d : GameData) (s : GameState) :
    (Game.spriteEatSpritePhase d s).deadBlackHoles = s.deadBlackHoles :=
  spriteEatSpritePhaseEv_invariant d s
    (fun acc => acc.1.deadBlackHoles = s.deadBlackHoles) rfl
    (fun i j acc h => by
      show (Game.pairStep d i j acc).1.deadBlackHoles = s.deadBlackHoles
      rw [pairStep_deadBlackHoles]; exact h)

theorem spriteEatSpritePhase_framesElapsed (d : GameData) (s : GameState) :
    (Game.spriteEatSpritePhase d s).framesElapsed = s.framesElapsed :=
  spriteEatSpritePhaseEv_invariant d s
    (fun acc => acc.1.framesElapsed = s.framesElapsed) rfl
    (fun i j acc h => by
      show (Game.pairStep d i j acc).1.framesElapsed = s.framesElapsed
      rw [pairStep_framesElapsed]; exact h)

theorem flushEatenSprites_pellets (s : GameState) :
    (Game.flushEatenSprites s).pellets = s.pellets := rfl

theorem flushEatenSprites_blackHoles (s : GameState) :
    (Game.flushEatenSprites s).blackHoles = s.blackHoles := rfl

theorem flushEatenSprites_eatenPellets (s : GameState) :
    (Game.flushEatenSprites s).eatenPellets = s.eatenPellets := rfl

theorem flushEatenSprites_eatenSprites (s : GameState) :
    (Game.flushEatenSprites s).eatenSprites = [] := rfl

theorem flushEatenSprites_deadBlackHoles (s : GameState) :
    (Game.flushEatenSprites s).deadBlackHoles = s.deadBlackHoles := rfl

theorem placePellets_players (d : GameData) (pos : Nat → Int × Int)
    (qty : Nat) (s : GameState) :
    (Game.placePellets d pos qty s).players = s.players := by
  unfold Game.placePellets
  refine foldl_invariant _ (fun st : GameState => st.players = s.players) _ _
    rfl ?_
  intro st k h
  exact h

theorem placePellets_blackHoles (d : GameData) (pos : Nat → Int × Int)
    (qty : Nat) (s : GameState) :
    (Game.placePellets d pos qty s).blackHoles = s.blackHoles := by
  unfold Game.placePellets
  refine foldl_invariant _ (fun st : GameState => st.blackHoles = s.blackHoles) _ _
    rfl ?_
  intro st k h
  exact h

theorem placePellets_eatenPellets (d : GameData) (pos : Nat → Int × Int)
    (qty : Nat) (s : GameState) :
    (Game.placePellets d pos qty s).eatenPellets = s.eatenPellets := by
  unfold Game.placePellets
  refine foldl_invariant _ (fun st : GameState => st.eatenPellets = s.eatenPellets) _ _
    rfl ?_
  intro st k h
  exact h

theorem placePellets_eatenSprites (d : GameData) (pos : Nat → Int × Int)
    (qty : Nat) (s : GameState) :
    (Game.placePellets d pos qty s).eatenSprites = s.eatenSprites := by
  unfold Game.placePellets
  refine foldl_invariant _ (fun st : GameState => st.eatenSprites = s.eatenSprites) _ _
    rfl ?_
  intro st k h
  exact h

theorem placePellets_deadBlackHoles (d : GameData) (pos : Nat → Int × Int)
    (qty : Nat) (s : GameState) :
    (Game.placePellets d pos qty s).deadBlackHoles = s.deadBlackHoles := by
  unfold Game.placePellets
  refine foldl_invariant _
    (fun st : GameState => st.deadBlackHoles = s.deadBlackHoles) _ _ rfl ?_
  intro st k h
  exact h

theorem placeNewPellets_players (d : GameData) (pos : Nat → Int × Int)
    (s : GameState) : (Game.placeNewPellets d pos s).players = s.players := by
  unfold Game.placeNewPellets
  split
  · rw [placePellets_players]
  · rfl

theorem placeNewPellets_blackHoles (d : GameData) (pos : Nat → Int × Int)
    (s : GameState) :
    (Game.placeNewPellets d pos s).blackHoles = s.blackHoles := by
  unfold Game.placeNewPellets
  split
  · rw [placePellets_blackHoles]
  · rfl

theorem placeNewPellets_eatenPellets (d : GameData) (pos : Nat → Int × Int)
    (s : GameState) :
    (Game.placeNewPellets d pos s).eatenPellets = s.eatenPellets := by
  unfold Game.placeNewPellets
  split
  · rw [placePellets_eatenPellets]
  · rfl

theorem placeNewPellets_eatenSprites (d : GameData) (pos : Nat → Int × Int)
    (s : GameState) :
    (Game.placeNewPellets d pos s).eatenSprites = s.eatenSprites := by
  unfold Game.placeNewPellets
  split
  · rw [placePellets_eatenSprites]
  · rfl

theorem placeNewPellets_deadBlackHoles (d : GameData) (pos : Nat → Int × Int)
    (s : GameState) :
    (Game.placeNewPellets d pos s).deadBlackHoles = s.deadBlackHoles := by
  unfold Game.placeNewPellets
  split
  · rw [placePellets_deadBlackHoles]
  · rfl

/-! ### C9 -/

/-- C9: the three removal-staging sets, empty when `run()` is called, are
empty again when `run()` returns, for every configuration and hence for every
interleaving of eligibility-predicate outcomes. -/
theorem c9_staging_sets_empty (d : GameData) (fc : Nat) (rx ry : Int)
    (pos : Nat → Int × Int) (s : GameState)
    (h1 : s.eatenPellets = []) (h2 : s.eatenSprites = [])
    (h3 : s.deadBlackHoles = []) :
    (Game.run d fc rx ry pos s).eatenPellets = [] ∧
    (Game.run d fc rx ry pos s).eatenSprites = [] ∧
    (Game.run d fc rx ry pos s).deadBlackHoles = [] := by
  unfold Game.run
  by_cases hg : (!s.started || s.paused) = true
  · rw [if_pos hg]
    exact ⟨h1, h2, h3⟩
  · rw [if_neg hg]
    refine ⟨?_, ?_, ?_⟩
    · rw [placeNewPellets_eatenPellets, flushEatenSprites_eatenPellets,
        spriteEatSpritePhase_eatenPellets, flushEatenPellets_eatenPellets]
    · rw [placeNewPellets_eatenSprites, flushEatenSprites_eatenSprites]
    · rw [placeNewPellets_deadBlackHoles, flushEatenSprites_deadBlackHoles,
        spriteEatSpritePhase_deadBlackHoles, flushEatenPellets_deadBlackHoles,
        spriteEatPelletPhase_deadBlackHoles, controlPhase_deadBlackHoles,
        flushEatenPellets_deadBlackHoles, flushDeadBlackHoles_deadBlackHoles]

/-- C9 witness: one tick on a running state with empty staging sets. -/
theorem c9_staging_sets_empty_witness :
    (stateBase.eatenPellets = [] ∧ stateBase.eatenSprites = [] ∧
      stateBase.deadBlackHoles = []) ∧
    ((Game.run dataBase 1 0 0 exPos stateBase).eatenPellets = [] ∧
      (Game.run dataBase 1 0 0 exPos stateBase).eatenSprites = [] ∧
      (Game.run dataBase 1 0 0 exPos stateBase).deadBlackHoles = []) :=
  ⟨⟨by decide, by decide, by decide⟩,
    c9_staging_sets_empty dataBase 1 0 0 exPos stateBase (by decide)
      (by decide) (by decide)⟩

/-! ### C4, amended -/

/-- C4 as amended: during a running tick in which no hazard is staged as
dead, the `blackHoles` collection gains exactly one element when the global
animation-loop counter `frameCount` satisfies
`frameCount % spawnInterval == 0` (JS semantics: false for interval 0), and
none otherwise.  The game's own `framesElapsed` counter plays no role. -/
theorem c4_spawn_amended (d : GameData) (fc : Nat) (rx ry : Int)
    (pos : Nat → Int × Int) (s : GameState)
    (h1 : s.started = true) (h2 : s.paused = false)
    (h3 : (Game.hazardPhase d (Game.spawnBlackHole d fc rx ry s)
      ).deadBlackHoles = []) :
    (Game.run d fc rx ry pos s).blackHoles.length =
      s.blackHoles.length +
        (if d.spawnInterval ≠ 0 ∧ fc % d.spawnInterval = 0 then 1 else 0) := by
  unfold Game.run
  rw [if_neg (by simp [h1, h2])]
  rw [placeNewPellets_blackHoles, flushEatenSprites_blackHoles,
    spriteEatSpritePhase_blackHoles, flushEatenPellets_blackHoles,
    spriteEatPelletPhase_blackHoles, controlPhase_blackHoles,
    flushEatenPellets_blackHoles,
    flushDeadBlackHoles_blackHoles_of_empty _ h3,
    hazardPhase_blackHoles_length, spawnBlackHole_blackHoles_length]

/-- C4 amended witness: with `spawnInterval = 2` and global `frameCount = 2`,
one hole is spawned into an empty collection. -/
theorem c4_spawn_amended_witness :
    (c4State.started = true ∧ c4State.paused = false ∧
      (Game.hazardPhase c4Data (Game.spawnBlackHole c4Data 2 0 0 c4State)
        ).deadBlackHoles = []) ∧
    (Game.run c4Data 2 0 0 exPos c4State).blackHoles.length =
      c4State.blackHoles.length +
        (if c4Data.spawnInterval ≠ 0 ∧ 2 % c4Data.spawnInterval = 0 then 1
         else 0) :=
  ⟨⟨by decide, by decide, by decide⟩,
    c4_spawn_amended c4Data 2 0 0 exPos c4State (by decide) (by decide)
      (by decide)⟩

/-! ### Closed forms for the rebuild folds -/

/-- A fold whose step appends one transformed element and some staged ids is
a map plus a flatMap. -/
theorem foldl_pair_append {α : Type _}
    (step : List α × List Nat → α → List α × List Nat)
    (g : α → α) (h : α → List Nat)
    (hstep : ∀ ac x, step ac x = (ac.1 ++ [g x], ac.2 ++ h x)) :
    ∀ (l : List α) (acc : List α) (es : List Nat),
      l.foldl step (acc, es) = (acc ++ l.map g, es ++ l.flatMap h) := by
  intro l
  induction l with
  | nil => intro acc es; simp
  | cons a t ih =>
    intro acc es
    rw [List.foldl_cons, hstep]
    rw [ih]
    simp [List.append_assoc]

/-- Closed form of one hazard's player scan. -/
theorem hazardSpriteFold (d : GameData) (b : BlackHole) :
    ∀ (l : List Sprite) (acc : List Sprite) (es : List Nat),
      l.foldl
        (fun (acc : List Sprite × List Nat) pl =>
          if d.canSuckSprite b pl then
            let pl := suckSprite d b pl
            (acc.1 ++ [pl],
             if pl.actualSize ≤ 0 then acc.2 ++ [pl.id] else acc.2)
          else (acc.1 ++ [pl], acc.2))
        (acc, es)
      = (acc ++ l.map (hazSuck d b), es ++ l.flatMap (hazStage d b)) := by
  apply foldl_pair_append
  intro ac x
  unfold hazSuck hazStage
  by_cases hc : d.canSuckSprite b x
  · by_cases hz : (suckSprite d b x).actualSize ≤ 0 <;> simp [hc, hz]
  · simp [hc]

theorem hazardStep_players_eq (d : GameData) (s : GameState) (k : Nat) :
    (Game.hazardStep d s k).players =
      s.players.map
        (hazSuck d (blackHoleDisplay (s.blackHoles.getD k ⟨0, 0, 0, 0, 0, 0⟩))) := by
  simp only [Game.hazardStep]
  rw [hazardSpriteFold]
  simp

theorem hazardStep_eatenSprites_eq (d : GameData) (s : GameState) (k : Nat) :
    (Game.hazardStep d s k).eatenSprites =
      s.eatenSprites ++
        s.players.flatMap
          (hazStage d
            (blackHoleDisplay (s.blackHoles.getD k ⟨0, 0, 0, 0, 0, 0⟩))) := by
  simp only [Game.hazardStep]
  rw [hazardSpriteFold]

/-! ### Identity preservation -/

theorem hazSuck_id (d : GameData) (b : BlackHole) (pl : Sprite) :
    (hazSuck d b pl).id = pl.id := by
  unfold hazSuck suckSprite
  split <;> rfl

/-- A pointwise id-preserving map keeps the id listing. -/
theorem map_id_of_pointwise (f : Sprite → Sprite)
    (hf : ∀ x : Sprite, (f x).id = x.id) (l : List Sprite) :
    (l.map f).map Sprite.id = l.map Sprite.id := by
  induction l with
  | nil => rfl
  | cons a t ih => simp [hf, ih]

theorem hazardStep_players_map_id (d : GameData) (s : GameState) (k : Nat) :
    (Game.hazardStep d s k).players.map Sprite.id =
      s.players.map Sprite.id := by
  rw [hazardStep_players_eq]
  exact map_id_of_pointwise _ (fun x => hazSuck_id d _ x) s.players

theorem hazardPhase_players_map_id (d : GameData) (s : GameState) :
    (Game.hazardPhase d s).players.map Sprite.id =
      s.players.map Sprite.id := by
  unfold Game.hazardPhase
  refine foldl_invariant _
    (fun st : GameState => st.players.map Sprite.id = s.players.map Sprite.id)
    _ _ rfl ?_
  intro st k h
  show (Game.hazardStep d st k).players.map Sprite.id = s.players.map Sprite.id
  rw [hazardStep_players_map_id]; exact h

theorem controlPhase_players_map_id (d : GameData) (s : GameState) :
    (Game.controlPhase d s).players.map Sprite.id =
      s.players.map Sprite.id := by
  show (s.players.map (spriteControl d)).map Sprite.id =
    s.players.map Sprite.id
  exact map_id_of_pointwise (spriteControl d) (fun x => rfl) s.players

/-! ### Closed form for the sprite-eats-pellet step -/

/-- One player's pellet scan splits into a result sprite (independent of the
staging accumulator) and appended staged ids. -/
theorem eatFold_split (d : GameData) :
    ∀ (pellets : List Pellet) (sp : Sprite) (es : List Nat),
      Game.spriteEatPelletStep d pellets sp es =
        (eatResult d pellets sp, es ++ eatStaged d pellets sp) := by
  intro pellets
  induction pellets with
  | nil =>
    intro sp es
    simp [Game.spriteEatPelletStep, eatResult, eatStaged]
  | cons p t ih =>
    intro sp es
    by_cases hc : d.canEatPellet sp p
    · have h1 : Game.spriteEatPelletStep d (p :: t) sp es =
          Game.spriteEatPelletStep d t (eatPellet d sp p) (es ++ [p.id]) := by
        simp [Game.spriteEatPelletStep, List.foldl_cons, hc]
      have h2 : Game.spriteEatPelletStep d (p :: t) sp [] =
          Game.spriteEatPelletStep d t (eatPellet d sp p) [p.id] := by
        simp [Game.spriteEatPelletStep, List.foldl_cons, hc]
      have h3 : eatResult d (p :: t) sp = eatResult d t (eatPellet d sp p) := by
        unfold eatResult
        rw [h2]
        simp [ih]
      have h4 : eatStaged d (p :: t) sp =
          p.id :: eatStaged d t (eatPellet d sp p) := by
        unfold eatStaged
        rw [h2]
        simp [ih]
      rw [h1, ih, h3, h4]
      simp
    · have h1 : Game.spriteEatPelletStep d (p :: t) sp es =
          Game.spriteEatPelletStep d t sp es := by
        simp [Game.spriteEatPelletStep, List.foldl_cons, hc]
      have h2 : Game.spriteEatPelletStep d (p :: t) sp [] =
          Game.spriteEatPelletStep d t sp [] := by
        simp [Game.spriteEatPelletStep, List.foldl_cons, hc]
      have h3 : eatResult d (p :: t) sp = eatResult d t sp := by
        unfold eatResult
        rw [h2]
      have h4 : eatStaged d (p :: t) sp = eatStaged d t sp := by
        unfold eatStaged
        rw [h2]
      rw [h1, ih, h3, h4]

theorem spriteEatPelletPhase_players_eq (d : GameData) (s : GameState) :
    (Game.spriteEatPelletPhase d s).players =
      s.players.map (eatResult d s.pellets) := by
  simp only [Game.spriteEatPelletPhase]
  rw [foldl_pair_append _ (eatResult d s.pellets) (eatStaged d s.pellets)
    (fun ac sp => by rw [eatFold_split])]
  simp

theorem spriteEatPelletPhase_eatenPellets_eq (d : GameData) (s : GameState) :
    (Game.spriteEatPelletPhase d s).eatenPellets =
      s.eatenPellets ++ s.players.flatMap (eatStaged d s.pellets) := by
  simp only [Game.spriteEatPelletPhase]
  rw [foldl_pair_append _ (eatResult d s.pellets) (eatStaged d s.pellets)
    (fun ac sp => by rw [eatFold_split])]

theorem eatResult_id (d : GameData) (pellets : List Pellet) (sp : Sprite) :
    (eatResult d pellets sp).id = sp.id := by
  induction pellets generalizing sp with
  | nil => rfl
  | cons p t ih =>
    unfold eatResult
    by_cases hc : d.canEatPellet sp p
    · have h2 : Game.spriteEatPelletStep d (p :: t) sp [] =
          Game.spriteEatPelletStep d t (eatPellet d sp p) [p.id] := by
        simp [Game.spriteEatPelletStep, List.foldl_cons, hc]
      rw [h2, eatFold_split]
      exact ih (eatPellet d sp p)
    · have h2 : Game.spriteEatPelletStep d (p :: t) sp [] =
          Game.spriteEatPelletStep d t sp [] := by
        simp [Game.spriteEatPelletStep, List.foldl_cons, hc]
      rw [h2, eatFold_split]
      exact ih sp

theorem spriteEatPelletPhase_players_map_id (d : GameData) (s : GameState) :
    (Game.spriteEatPelletPhase d s).players.map Sprite.id =
      s.players.map Sprite.id := by
  rw [spriteEatPelletPhase_players_eq]
  exact map_id_of_pointwise _ (fun x => eatResult_id d s.pellets x) s.players

/-- Setting a position to the value it already holds is the identity. -/
theorem set_getD_self (l : List Nat) (j : Nat) :
    l.set j (l.getD j 0) = l := by
  induction l generalizing j with
  | nil => rfl
  | cons a t ih =>
    cases j with
    | zero => rfl
    | succ j =>
      show a :: t.set j ((a :: t).getD (j + 1) 0) = a :: t
      have h : (a :: t).getD (j + 1) 0 = t.getD j 0 := rfl
      rw [h, ih j]

/-- `getD` through a map, inside bounds. -/
theorem getD_map_id (l : List Sprite) (j : Nat) (h : j < l.length) :
    (l.map Sprite.id).getD j 0 = (l.getD j spriteDefault).id := by
  induction l generalizing j with
  | nil => simp at h
  | cons a t ih =>
    cases j with
    | zero => rfl
    | succ j =>
      simp only [List.length_cons] at h
      exact ih j (by omega)

/-- Writing back a sprite with the id the slot already holds keeps the id
listing. -/
theorem map_set_getD (l : List Sprite) (j : Nat) :
    (l.map Sprite.id).set j (l.getD j spriteDefault).id =
      l.map Sprite.id := by
  by_cases hj : j < l.length
  · rw [← getD_map_id l j hj]
    exact set_getD_self (l.map Sprite.id) j
  · exact List.set_eq_of_length_le (by simp; omega)

theorem pairStep_players_map_id (d : GameData) (i j : Nat)
    (acc : GameState × List (Nat × Nat × Bool)) :
    (Game.pairStep d i j acc).1.players.map Sprite.id =
      acc.1.players.map Sprite.id := by
  simp only [Game.pairStep]
  split
  · show (((acc.1.players.set j _).set i _).map Sprite.id) = _
    rw [List.map_set, List.map_set]
    show (((acc.1.players.map Sprite.id).set j
      (acc.1.players.getD j spriteDefault).id).set i
      (acc.1.players.getD i spriteDefault).id) = _
    rw [map_set_getD]
    rw [map_set_getD]
  · split
    · show (((acc.1.players.set j _).set i _).map Sprite.id) = _
      rw [List.map_set, List.map_set]
      show (((acc.1.players.map Sprite.id).set j
        (acc.1.players.getD j spriteDefault).id).set i
        (acc.1.players.getD i spriteDefault).id) = _
      rw [map_set_getD]
      rw [map_set_getD]
    · rfl

theorem spriteEatSpritePhase_players_map_id (d : GameData) (s : GameState) :
    (Game.spriteEatSpritePhase d s).players.map Sprite.id =
      s.players.map Sprite.id :=
  spriteEatSpritePhaseEv_invariant d s
    (fun acc => acc.1.players.map Sprite.id = s.players.map Sprite.id) rfl
    (fun i j acc h => by
      show (Game.pairStep d i j acc).1.players.map Sprite.id =
        s.players.map Sprite.id
      rw [pairStep_players_map_id]; exact h)

theorem pairStep_eatenSprites_mono (d : GameData) (i j : Nat)
    (acc : GameState × List (Nat × Nat × Bool)) (sid : Nat)
    (h : sid ∈ acc.1.eatenSprites) :
    sid ∈ (Game.pairStep d i j acc).1.eatenSprites := by
  simp only [Game.pairStep]
  split
  · exact List.mem_append_left _ h
  · split
    · exact List.mem_append_left _ h
    · exact h

theorem spriteEatSpritePhase_eatenSprites_mono (d : GameData) (s : GameState)
    (sid : Nat) (h : sid ∈ s.eatenSprites) :
    sid ∈ (Game.spriteEatSpritePhase d s).eatenSprites :=
  spriteEatSpritePhaseEv_invariant d s
    (fun acc => sid ∈ acc.1.eatenSprites) h
    (fun i j acc hm => pairStep_eatenSprites_mono d i j acc sid hm)

/-- The eaten-sprite flush eliminates every staged id from the live player
collection (given unique player ids). -/
theorem flushEatenSprites_removes (s : GameState)
    (hnd : (s.players.map Sprite.id).Nodup) (sid : Nat)
    (h : sid ∈ s.eatenSprites) :
    sid ∉ (Game.flushEatenSprites s).players.map Sprite.id := by
  exact flushFold_not_mem Sprite.id s.eatenSprites s.players hnd sid h

/-- During the hazard phase, every staged sprite id belongs to a live player
whose `actualSize` is `<= 0` (drains only ever lower `actualSize`). -/
theorem hazardPhase_staged_dead (d : GameData) (s : GameState)
    (hmono : ∀ q : Int, 0 ≤ d.suckAmount q)
    (h0 : ∀ sid ∈ s.eatenSprites,
      ∃ sp ∈ s.players, sp.id = sid ∧ sp.actualSize ≤ 0) :
    ∀ sid ∈ (Game.hazardPhase d s).eatenSprites,
      ∃ sp ∈ (Game.hazardPhase d s).players,
        sp.id = sid ∧ sp.actualSize ≤ 0 := by
  unfold Game.hazardPhase
  refine foldl_invariant _
    (fun st : GameState => ∀ sid ∈ st.eatenSprites,
      ∃ sp ∈ st.players, sp.id = sid ∧ sp.actualSize ≤ 0) _ _ h0 ?_
  intro st k hP
  show ∀ sid ∈ (Game.hazardStep d st k).eatenSprites,
    ∃ sp ∈ (Game.hazardStep d st k).players, sp.id = sid ∧ sp.actualSize ≤ 0
  rw [hazardStep_eatenSprites_eq, hazardStep_players_eq]
  intro sid hsid
  rcases List.mem_append.mp hsid with hold | hnew
  · obtain ⟨sp, hsp, hid, hsz⟩ := hP sid hold
    refine ⟨hazSuck d _ sp, List.mem_map_of_mem _ hsp, by
      rw [hazSuck_id]; exact hid, ?_⟩
    unfold hazSuck
    split
    · unfold suckSprite
      have := hmono (blackHoleDisplay
        (st.blackHoles.getD k ⟨0, 0, 0, 0, 0, 0⟩)).power
      simp only []
      omega
    · exact hsz
  · obtain ⟨pl, hpl, hin⟩ := List.mem_flatMap.mp hnew
    unfold hazStage at hin
    by_cases hc : d.canSuckSprite
        (blackHoleDisplay (st.blackHoles.getD k ⟨0, 0, 0, 0, 0, 0⟩)) pl
    · rw [if_pos hc] at hin
      by_cases hz : (suckSprite d
          (blackHoleDisplay (st.blackHoles.getD k ⟨0, 0, 0, 0, 0, 0⟩))
          pl).actualSize ≤ 0
      · rw [if_pos hz] at hin
        rcases List.mem_singleton.mp hin with rfl
        refine ⟨hazSuck d _ pl, List.mem_map_of_mem _ hpl, ?_, ?_⟩
        · unfold hazSuck
          rw [if_pos hc]
        · unfold hazSuck
          rw [if_pos hc]
          exact hz
      · rw [if_neg hz] at hin
        simp at hin
    · rw [if_neg hc] at hin
      simp at hin

/-! ### C3 -/

/-- C3 counterexample: sprite 2 has `actualSize = 5 > 0` throughout the tick
(there are no hazards, so `suckSprite` is never called), yet the eaten-sprites
flush removes it from the live players collection, because sprite 1 ate it in
the sprite-eats-sprite step.  This refutes the claim that no sprite whose
`actualSize` stays positive is removed by that flush. -/
theorem c3_counterexample :
    c3State.blackHoles = [] ∧
    (c3State.players.getD 1 spriteDefault).actualSize = 5 ∧
    c3State.players.map Sprite.id = [1, 2] ∧
    (Game.run c3Data 1 0 0 exPos c3State).players.map Sprite.id = [1] := by
  decide

/-- C3 as amended: every sprite staged into eaten-sprites during the hazard
phase is a live player drained to `actualSize <= 0`, and is removed from the
live players collection by the end of the tick (given distinct player ids and
a non-negative drain).  The dropped part of the original claim: sprites with
positive `actualSize` can also be removed by the same flush, namely victims
of `eatOtherSprite` in the sprite-eats-sprite step (see the
counterexample). -/
theorem c3_sprite_death_amended (d : GameData) (fc : Nat) (rx ry : Int)
    (pos : Nat → Int × Int) (s : GameState)
    (h1 : s.started = true) (h2 : s.paused = false)
    (hnd : (s.players.map Sprite.id).Nodup)
    (hmono : ∀ q : Int, 0 ≤ d.suckAmount q)
    (hinit : s.eatenSprites = []) (sid : Nat)
    (hstaged : sid ∈
      (Game.hazardPhase d (Game.spawnBlackHole d fc rx ry s)).eatenSprites) :
    (∃ sp ∈ (Game.hazardPhase d (Game.spawnBlackHole d fc rx ry s)).players,
        sp.id = sid ∧ sp.actualSize ≤ 0) ∧
    sid ∉ (Game.run d fc rx ry pos s).players.map Sprite.id := by
  constructor
  · refine hazardPhase_staged_dead d _ hmono ?_ sid hstaged
    rw [spawnBlackHole_eatenSprites, hinit]
    simp
  · have hrun : (Game.run d fc rx ry pos s).players =
        (Game.flushEatenSprites (Game.spriteEatSpritePhase d
          (Game.flushEatenPellets (Game.spriteEatPelletPhase d
            (Game.controlPhase d (Game.flushEatenPellets
              (Game.flushDeadBlackHoles (Game.hazardPhase d
                (Game.spawnBlackHole d fc rx ry s))))))))).players := by
      unfold Game.run
      rw [if_neg (by simp [h1, h2])]
      rw [placeNewPellets_players]
    rw [hrun]
    apply flushEatenSprites_removes
    · rw [spriteEatSpritePhase_players_map_id, flushEatenPellets_players,
        spriteEatPelletPhase_players_map_id, controlPhase_players_map_id,
        flushEatenPellets_players, flushDeadBlackHoles_players,
        hazardPhase_players_map_id, spawnBlackHole_players]
      exact hnd
    · apply spriteEatSpritePhase_eatenSprites_mono
      rw [flushEatenPellets_eatenSprites, spriteEatPelletPhase_eatenSprites,
        controlPhase_eatenSprites, flushEatenPellets_eatenSprites,
        flushDeadBlackHoles_eatenSprites]
      exact hstaged

/-- C3 amended witness: a hazard drains sprite 1 from 50 to -50; it is staged
during the hazard phase and gone from the players collection after the
tick. -/
theorem c3_sprite_death_amended_witness :
    (c3wState.started = true ∧ c3wState.paused = false ∧
      (c3wState.players.map Sprite.id).Nodup ∧
      (∀ q : Int, 0 ≤ c3wData.suckAmount q) ∧
      c3wState.eatenSprites = [] ∧
      1 ∈ (Game.hazardPhase c3wData
        (Game.spawnBlackHole c3wData 1 0 0 c3wState)).eatenSprites) ∧
    ((∃ sp ∈ (Game.hazardPhase c3wData
          (Game.spawnBlackHole c3wData 1 0 0 c3wState)).players,
        sp.id = 1 ∧ sp.actualSize ≤ 0) ∧
      1 ∉ (Game.run c3wData 1 0 0 exPos c3wState).players.map Sprite.id) :=
  ⟨⟨by decide, by decide, by decide,
      fun q => by show (0 : Int) ≤ 100; decide, by decide, by decide⟩,
    c3_sprite_death_amended c3wData 1 0 0 exPos c3wState (by decide)
      (by decide) (by decide) (fun q => by show (0 : Int) ≤ 100; decide)
      (by decide) 1 (by decide)⟩

/-- `getD` after setting a different position. -/
theorem getD_set_ne {α : Type _} (l : List α) (i j : Nat) (hij : i ≠ j)
    (x dflt : α) : (l.set i x).getD j dflt = l.getD j dflt := by
  induction l generalizing i j with
  | nil => rfl
  | cons a t ih =>
    cases i with
    | zero =>
      cases j with
      | zero => exact absurd rfl hij
      | succ j => rfl
    | succ i =>
      cases j with
      | zero => rfl
      | succ j => exact ih i j (fun h => hij (by rw [h]))

/-- `getD` after setting the same position, inside bounds. -/
theorem getD_set_self_of_lt {α : Type _} (l : List α) (j : Nat)
    (hj : j < l.length) (x dflt : α) : (l.set j x).getD j dflt = x := by
  induction l generalizing j with
  | nil => simp at hj
  | cons a t ih =>
    cases j with
    | zero => rfl
    | succ j =>
      simp only [List.length_cons] at hj
      exact ih j (by omega) 

/-! ### C5 -/

/-- C5 counterexample: sprite 1 eats sprite 2 (nominal size 10, current
actualSize 50, identity value-function); the victim's stored `value` is
`spriteValue(size) = 10`, not `spriteValue(actualSize) = 50`, refuting the
claim that the value-function is applied to the victim's current mutable
size. -/
theorem c5_counterexample :
    c3Data.canEatSprite (c5State.players.getD 0 spriteDefault)
        (c5State.players.getD 1 spriteDefault) = true ∧
    ((Game.pairStep c3Data 0 1 (c5State, [])).1.players.getD 1
        spriteDefault).value =
      c3Data.spriteValue (c5State.players.getD 1 spriteDefault).size ∧
    ((Game.pairStep c3Data 0 1 (c5State, [])).1.players.getD 1
        spriteDefault).value ≠
      c3Data.spriteValue
        (c5State.players.getD 1 spriteDefault).actualSize := by
  decide

/-- C5 as amended: when the sprite at position `i` eats the sprite at
position `j`, the victim's `value` is set at the moment of consumption to the
configured value-function applied to the victim's fixed nominal `size` field
(its mutable `actualSize` is untouched and not consulted), the victim is
staged into eaten-sprites, and the winner's `actualSize` grows by exactly
that value. -/
theorem c5_value_amended (d : GameData) (i j : Nat) (s : GameState)
    (evs : List (Nat × Nat × Bool)) (hij : i ≠ j)
    (hi : i < s.players.length) (hj : j < s.players.length)
    (hc : d.canEatSprite (s.players.getD i spriteDefault)
      (s.players.getD j spriteDefault) = true) :
    ((Game.pairStep d i j (s, evs)).1.players.getD j spriteDefault).value =
      d.spriteValue (s.players.getD j spriteDefault).size ∧
    ((Game.pairStep d i j (s, evs)).1.players.getD j
        spriteDefault).actualSize =
      (s.players.getD j spriteDefault).actualSize ∧
    ((Game.pairStep d i j (s, evs)).1.players.getD i
        spriteDefault).actualSize =
      (s.players.getD i spriteDefault).actualSize +
        d.spriteValue (s.players.getD j spriteDefault).size ∧
    (Game.pairStep d i j (s, evs)).1.eatenSprites =
      s.eatenSprites ++ [(s.players.getD j spriteDefault).id] := by
  simp only [Game.pairStep, hc, if_pos]
  refine ⟨?_, ?_, ?_, trivial⟩
  · rw [getD_set_ne _ i j hij, getD_set_self_of_lt _ j (by simp [hj])]
  · rw [getD_set_ne _ i j hij, getD_set_self_of_lt _ j (by simp [hj])]
  · rw [getD_set_self_of_lt _ i (by simp [hi])]
    rfl

/-- C5 amended witness: concrete consumption of sprite 2 by sprite 1. -/
theorem c5_value_amended_witness :
    ((0 : Nat) ≠ 1 ∧ 0 < c5State.players.length ∧
      1 < c5State.players.length ∧
      c3Data.canEatSprite (c5State.players.getD 0 spriteDefault)
        (c5State.players.getD 1 spriteDefault) = true) ∧
    (((Game.pairStep c3Data 0 1 (c5State, [])).1.players.getD 1
        spriteDefault).value =
      c3Data.spriteValue (c5State.players.getD 1 spriteDefault).size ∧
    ((Game.pairStep c3Data 0 1 (c5State, [])).1.players.getD 1
        spriteDefault).actualSize =
      (c5State.players.getD 1 spriteDefault).actualSize ∧
    ((Game.pairStep c3Data 0 1 (c5State, [])).1.players.getD 0
        spriteDefault).actualSize =
      (c5State.players.getD 0 spriteDefault).actualSize +
        c3Data.spriteValue (c5State.players.getD 1 spriteDefault).size ∧
    (Game.pairStep c3Data 0 1 (c5State, [])).1.eatenSprites =
      c5State.eatenSprites ++
        [(c5State.players.getD 1 spriteDefault).id]) :=
  ⟨⟨by decide, by decide, by decide, by decide⟩,
    c5_value_amended c3Data 0 1 c5State [] (by decide) (by decide) (by decide)
      (by decide)⟩

/-! ### C2 machinery -/

theorem eatStaged_cons_pos (d : GameData) (p : Pellet) (t : List Pellet)
    (sp : Sprite) (hc : d.canEatPellet sp p = true) :
    eatStaged d (p :: t) sp = p.id :: eatStaged d t (eatPellet d sp p) := by
  unfold eatStaged
  have h2 : Game.spriteEatPelletStep d (p :: t) sp [] =
      Game.spriteEatPelletStep d t (eatPellet d sp p) [p.id] := by
    simp [Game.spriteEatPelletStep, List.foldl_cons, hc]
  rw [h2]
  simp [eatFold_split]

theorem eatStaged_cons_neg (d : GameData) (p : Pellet) (t : List Pellet)
    (sp : Sprite) (hc : ¬ d.canEatPellet sp p = true) :
    eatStaged d (p :: t) sp = eatStaged d t sp := by
  unfold eatStaged
  have h2 : Game.spriteEatPelletStep d (p :: t) sp [] =
      Game.spriteEatPelletStep d t sp [] := by
    simp [Game.spriteEatPelletStep, List.foldl_cons, hc]
  rw [h2]

/-- A single player's staged list follows the live pellet order (one entry
per distinct qualifying pellet). -/
theorem eatStaged_sublist (d : GameData) :
    ∀ (pellets : List Pellet) (sp : Sprite),
      List.Sublist (eatStaged d pellets sp) (pellets.map Pellet.id) := by
  intro pellets
  induction pellets with
  | nil =>
    intro sp
    simp [eatStaged, Game.spriteEatPelletStep]
  | cons p t ih =>
    intro sp
    by_cases hc : d.canEatPellet sp p
    · rw [eatStaged_cons_pos d p t sp hc, List.map_cons]
      exact (ih (eatPellet d sp p)).cons₂ p.id
    · rw [eatStaged_cons_neg d p t sp hc, List.map_cons]
      exact (ih sp).cons p.id

/-- Every staged pellet id comes from a live pellet that some sprite state
with this player's identity qualified for. -/
theorem eatStaged_mem (d : GameData) :
    ∀ (pellets : List Pellet) (sp : Sprite) (pid : Nat),
      pid ∈ eatStaged d pellets sp →
        ∃ p ∈ pellets, p.id = pid ∧
          ∃ a : Sprite, a.id = sp.id ∧ d.canEatPellet a p = true := by
  intro pellets
  induction pellets with
  | nil =>
    intro sp pid h
    simp [eatStaged, Game.spriteEatPelletStep] at h
  | cons p t ih =>
    intro sp pid h
    by_cases hc : d.canEatPellet sp p
    · rw [eatStaged_cons_pos d p t sp hc] at h
      rcases List.mem_cons.mp h with rfl | h'
      · exact ⟨p, List.mem_cons_self p t, rfl, sp, rfl, hc⟩
      · obtain ⟨q, hq, hqid, a, haid, hca⟩ := ih (eatPellet d sp p) pid h'
        exact ⟨q, List.mem_cons_of_mem p hq, hqid, a, haid, hca⟩
    · rw [eatStaged_cons_neg d p t sp hc] at h
      obtain ⟨q, hq, hqid, a, haid, hca⟩ := ih sp pid h
      exact ⟨q, List.mem_cons_of_mem p hq, hqid, a, haid, hca⟩

/-- With distinct pellet ids, distinct player ids and at most one qualifying
consumer per pellet, the combined staged list of the sprite-eats-pellet scan
has no duplicates. -/
theorem nodup_flatMap_staged (d : GameData) (pellets : List Pellet)
    (hnd : (pellets.map Pellet.id).Nodup) :
    ∀ l : List Sprite, (l.map Sprite.id).Nodup →
      (∀ a b : Sprite, ∀ p : Pellet, d.canEatPellet a p = true →
        d.canEatPellet b p = true → a.id = b.id) →
      (l.flatMap (eatStaged d pellets)).Nodup := by
  intro l
  induction l with
  | nil => intro _ _; simp
  | cons sp t ih =>
    intro hids huniq
    rw [List.map_cons, List.nodup_cons] at hids
    rw [List.flatMap_cons]
    refine (hnd.sublist (eatStaged_sublist d pellets sp)).append
      (ih hids.2 huniq) ?_
    intro x hx1 hx2
    obtain ⟨p, hp, hpid, a, haid, hca⟩ := eatStaged_mem d pellets sp x hx1
    obtain ⟨sq, hsq, hx3⟩ := List.mem_flatMap.mp hx2
    obtain ⟨q, hq, hqid, b, hbid, hcb⟩ := eatStaged_mem d pellets sq x hx3
    have hpq : p = q :=
      List.inj_on_of_nodup_map hnd hp hq (by rw [hpid, hqid])
    have hab : a.id = b.id := huniq a b p hca (by rw [hpq]; exact hcb)
    have hsps : sp.id = sq.id := by rw [← haid, hab, hbid]
    exact hids.1 (hsps ▸ List.mem_map_of_mem Sprite.id hsq)

/-! ### C2 -/

/-- C2 counterexample: both players qualify only for pellet 10; pellet 10 is
staged twice in one scan (`eatenPellets = [10, 10]`), and the flush then
removes the never-staged pellet 11 as well (`splice(indexOf = -1, 1)` takes
the last element), leaving the pellet collection empty.  This refutes both
"P never occupies two staged positions" and "no other (un-staged) pellet is
removed by the flush". -/
theorem c2_counterexample :
    c2Data.canEatPellet (c2State.players.getD 0 spriteDefault)
        (c2State.pellets.getD 1 ⟨0, 0, 0, 0, 0⟩) = false ∧
    c2Data.canEatPellet (c2State.players.getD 1 spriteDefault)
        (c2State.pellets.getD 1 ⟨0, 0, 0, 0, 0⟩) = false ∧
    (Game.spriteEatPelletPhase c2Data (Game.controlPhase c2Data
      (Game.flushEatenPellets (Game.flushDeadBlackHoles
        (Game.hazardPhase c2Data
          (Game.spawnBlackHole c2Data 1 0 0 c2State)))))).eatenPellets =
      [10, 10] ∧
    (Game.run c2Data 1 0 0 exPos c2State).pellets = [] := by
  decide

/-- C2 as amended: in the sprite-eats-pellet step and its flush, provided
pellet and player ids are distinct and at most one consumer can qualify for
any given pellet, each player's record is exactly its own independent pellet
scan (growing by the configured amount per eaten pellet), the staged list has
no duplicates, and the flush removes exactly the staged pellets and clears
the staging set.  Without the unique-consumer proviso the claim fails (see
the counterexample). -/
theorem c2_pellet_amended (d : GameData) (s : GameState)
    (hnd : (s.pellets.map Pellet.id).Nodup)
    (hnds : (s.players.map Sprite.id).Nodup)
    (hempty : s.eatenPellets = [])
    (huniq : ∀ a b : Sprite, ∀ p : Pellet, d.canEatPellet a p = true →
      d.canEatPellet b p = true → a.id = b.id) :
    (Game.spriteEatPelletPhase d s).players =
      s.players.map (eatResult d s.pellets) ∧
    (Game.spriteEatPelletPhase d s).eatenPellets.Nodup ∧
    (Game.flushEatenPellets (Game.spriteEatPelletPhase d s)).pellets =
      s.pellets.filter
        (fun p =>
          !((Game.spriteEatPelletPhase d s).eatenPellets.contains p.id)) ∧
    (Game.flushEatenPellets (Game.spriteEatPelletPhase d s)).eatenPellets =
      [] := by
  have hstagedeq : (Game.spriteEatPelletPhase d s).eatenPellets =
      s.players.flatMap (eatStaged d s.pellets) := by
    rw [spriteEatPelletPhase_eatenPellets_eq, hempty]
    simp
  have hnodupStaged : (Game.spriteEatPelletPhase d s).eatenPellets.Nodup := by
    rw [hstagedeq]
    exact nodup_flatMap_staged d s.pellets hnd s.players hnds huniq
  have hsubStaged : ∀ i ∈ (Game.spriteEatPelletPhase d s).eatenPellets,
      i ∈ s.pellets.map Pellet.id := by
    rw [hstagedeq]
    intro i hi
    obtain ⟨sp, hsp, hin⟩ := List.mem_flatMap.mp hi
    obtain ⟨p, hp, hpid, _⟩ := eatStaged_mem d s.pellets sp i hin
    exact hpid ▸ List.mem_map_of_mem Pellet.id hp
  refine ⟨spriteEatPelletPhase_players_eq d s, hnodupStaged, ?_, rfl⟩
  have hfl : (Game.flushEatenPellets (Game.spriteEatPelletPhase d s)).pellets =
      (Game.spriteEatPelletPhase d s).eatenPellets.foldl
        (fun ps pid => spliceRemove1 ps (jsIndexOfBy Pellet.id ps pid))
        s.pellets := rfl
  rw [hfl, flushFold_filter Pellet.id _ s.pellets hnd hnodupStaged hsubStaged]

/-- C2 amended witness: one eligible player, two pellets; pellet 10 is eaten
exactly once and pellet 11 survives. -/
theorem c2_pellet_amended_witness :
    ((c2State.pellets.map Pellet.id).Nodup ∧
      (c2State.players.map Sprite.id).Nodup ∧
      c2State.eatenPellets = [] ∧
      (∀ a b : Sprite, ∀ p : Pellet, c2wData.canEatPellet a p = true →
        c2wData.canEatPellet b p = true → a.id = b.id)) ∧
    ((Game.spriteEatPelletPhase c2wData c2State).players =
        c2State.players.map (eatResult c2wData c2State.pellets) ∧
      (Game.spriteEatPelletPhase c2wData c2State).eatenPellets.Nodup ∧
      (Game.flushEatenPellets
          (Game.spriteEatPelletPhase c2wData c2State)).pellets =
        c2State.pellets.filter
          (fun p =>
            !((Game.spriteEatPelletPhase c2wData
              c2State).eatenPellets.contains p.id)) ∧
      (Game.flushEatenPellets
          (Game.spriteEatPelletPhase c2wData c2State)).eatenPellets = []) :=
  ⟨⟨by decide, by decide, by decide,
      fun a b p ha hb => by
        simp only [c2wData, dataBase, Bool.and_eq_true, beq_iff_eq] at ha hb
        rw [ha.1, hb.1]⟩,
    c2_pellet_amended c2wData c2State (by decide) (by decide) (by decide)
      (fun a b p ha hb => by
        simp only [c2wData, dataBase, Bool.and_eq_true, beq_iff_eq] at ha hb
        rw [ha.1, hb.1])⟩

/-! ### C6 machinery -/

/-- Folding over a flatMap is the nested fold. -/
theorem foldl_flatMap {α β σ : Type _} (L : List α) (g : α → List β)
    (f : σ → β → σ) (init : σ) :
    (L.flatMap g).foldl f init =
      L.foldl (fun acc a => (g a).foldl f acc) init := by
  induction L generalizing init with
  | nil => rfl
  | cons a t ih =>
    rw [List.flatMap_cons, List.foldl_append, List.foldl_cons, ih]

/-- The sprite-eats-sprite step is a single fold over the ordered pair
visits. -/
theorem spriteEatSpritePhaseEv_eq_foldPairs (d : GameData) (s : GameState) :
    Game.spriteEatSpritePhaseEv d s =
      (allPairs s.players.length).foldl
        (fun acc pr => Game.pairStep d pr.1 pr.2 acc) (s, []) := by
  unfold Game.spriteEatSpritePhaseEv allPairs
  rw [foldl_flatMap]
  simp only [List.foldl_map]

/-- One pair check appends no event or exactly one event tagged with that
pair. -/
theorem pairStep_events (d : GameData) (i j : Nat)
    (acc : GameState × List (Nat × Nat × Bool)) :
    (Game.pairStep d i j acc).2 = acc.2 ∨
      ∃ dir : Bool, (Game.pairStep d i j acc).2 = acc.2 ++ [(i, j, dir)] := by
  simp only [Game.pairStep]
  split
  · exact Or.inr ⟨true, rfl⟩
  · split
    · exact Or.inr ⟨false, rfl⟩
    · exact Or.inl rfl

/-- The events appended by a sequence of pair checks follow the visit list:
their pair tags form a sublist of the visit order. -/
theorem foldPairs_events_sublist (d : GameData) :
    ∀ (visits : List (Nat × Nat)) (acc : GameState × List (Nat × Nat × Bool)),
      ∃ extra : List (Nat × Nat × Bool),
        (visits.foldl (fun acc pr => Game.pairStep d pr.1 pr.2 acc) acc).2 =
          acc.2 ++ extra ∧
        List.Sublist (extra.map (fun e => (e.1, e.2.1))) visits := by
  intro visits
  induction visits with
  | nil => intro acc; exact ⟨[], by simp, by simp⟩
  | cons pr rest ih =>
    intro acc
    rw [List.foldl_cons]
    obtain ⟨extra, heq, hsub⟩ := ih (Game.pairStep d pr.1 pr.2 acc)
    rcases pairStep_events d pr.1 pr.2 acc with h | ⟨dir, h⟩
    · refine ⟨extra, by rw [heq, h], hsub.cons pr⟩
    · refine ⟨(pr.1, pr.2, dir) :: extra, ?_, ?_⟩
      · rw [heq, h]; simp
      · simp only [List.map_cons]
        have := hsub.cons₂ (α := Nat × Nat) (pr.1, pr.2)
        simpa using this

/-- Blocks with nodup contents and a separating invariant concatenate without
duplicates. -/
theorem nodup_flatMap_of {α β : Type _} (g : α → List β) :
    ∀ L : List α, L.Nodup → (∀ a, (g a).Nodup) →
      (∀ a₁ a₂ x, x ∈ g a₁ → x ∈ g a₂ → a₁ = a₂) →
      (L.flatMap g).Nodup := by
  intro L
  induction L with
  | nil => intro _ _ _; simp
  | cons a t ih =>
    intro hnd hg hsep
    rw [List.nodup_cons] at hnd
    rw [List.flatMap_cons]
    refine (hg a).append (ih hnd.2 hg hsep) ?_
    intro x hx1 hx2
    obtain ⟨a', ha', hx3⟩ := List.mem_flatMap.mp hx2
    exact hnd.1 ((hsep a a' x hx1 hx3) ▸ ha')

/-- The visit list contains every ordered pair at most once. -/
theorem allPairs_nodup (n : Nat) : (allPairs n).Nodup := by
  unfold allPairs
  apply nodup_flatMap_of
  · exact List.nodup_range n
  · intro i
    exact ((List.nodup_range n).sublist
      (List.drop_sublist (i + 1) (List.range n))).map
      (fun j₁ j₂ h => congrArg Prod.snd h)
  · intro i₁ i₂ x hx1 hx2
    obtain ⟨j₁, hj₁, hxe₁⟩ := List.mem_map.mp hx1
    obtain ⟨j₂, hj₂, hxe₂⟩ := List.mem_map.mp hx2
    have h1 : x.1 = i₁ := by rw [← hxe₁]
    have h2 : x.1 = i₂ := by rw [← hxe₂]
    rw [← h1, h2]

/-- A nodup pair list holds any given pair at most once. -/
theorem filter_pair_length_le_one (i j : Nat) :
    ∀ l : List (Nat × Nat), l.Nodup →
      (l.filter (fun pr => pr.1 == i && pr.2 == j)).length ≤ 1 := by
  intro l
  induction l with
  | nil => intro _; simp
  | cons a t ih =>
    intro h
    rw [List.nodup_cons] at h
    by_cases ha : (a.1 == i && a.2 == j) = true
    · have haeq : a = (i, j) := by
        rcases a with ⟨a1, a2⟩
        simp only [Bool.and_eq_true, beq_iff_eq] at ha
        rw [ha.1, ha.2]
      have hnone : t.filter (fun pr => pr.1 == i && pr.2 == j) = [] := by
        rw [List.filter_eq_nil_iff]
        intro x hx hpx
        have hxeq : x = (i, j) := by
          rcases x with ⟨x1, x2⟩
          simp only [Bool.and_eq_true, beq_iff_eq] at hpx
          rw [hpx.1, hpx.2]
        exact h.1 ((haeq.trans hxeq.symm) ▸ hx)
      simp [List.filter_cons, ha, hnone]
    · simp only [List.filter_cons, ha, if_false]
      exact ih h.2

/-- Every in-range index past `m` survives dropping `m` from `range n`. -/
theorem mem_drop_range : ∀ (n m j : Nat), m ≤ j → j < n →
    j ∈ (List.range n).drop m := by
  intro n
  induction n with
  | zero => intro m j _ hj; omega
  | succ n ih =>
    intro m j hm hj
    rw [List.range_succ, List.drop_append_of_le_length (by simp; omega)]
    rcases Nat.lt_or_ge j n with h | h
    · exact List.mem_append_left _ (ih m j hm h)
    · have : j = n := by omega
      subst this
      exact List.mem_append_right _ (List.mem_singleton.mpr rfl)

/-- Each ordered pair `i < j < n` is visited. -/
theorem mem_allPairs (n i j : Nat) (hij : i < j) (hj : j < n) :
    (i, j) ∈ allPairs n := by
  unfold allPairs
  refine List.mem_flatMap.mpr ⟨i, List.mem_range.mpr (by omega), ?_⟩
  exact List.mem_map.mpr ⟨j, mem_drop_range n (i + 1) j (by omega) hj, rfl⟩

/-! ### C6 -/

/-- C6: in a single sprite-eats-sprite step, each unordered pair of positions
`i < j` is visited exactly once (the visit list holds it once) and produces
at most one eat event (so at most one of "A eats B" / "B eats A" occurs);
and at any pair check, if the first-checked direction
`canEatSprite(players[i], players[j])` holds the event is the first
direction, the reverse direction wins only when the first predicate is
false, and no event occurs when both are false. -/
theorem c6_pairwise_exclusive (d : GameData) (s : GameState) (i j : Nat)
    (t : GameState) (evs : List (Nat × Nat × Bool))
    (hij : i < j) (hj : j < s.players.length) :
    ((allPairs s.players.length).filter
      (fun pr => pr.1 == i && pr.2 == j)).length = 1 ∧
    countPair (Game.spriteEatSpritePhaseEv d s).2 i j ≤ 1 ∧
    (d.canEatSprite (t.players.getD i spriteDefault)
        (t.players.getD j spriteDefault) = true →
      (Game.pairStep d i j (t, evs)).2 = evs ++ [(i, j, true)]) ∧
    (d.canEatSprite (t.players.getD i spriteDefault)
        (t.players.getD j spriteDefault) = false →
      d.canEatSprite (t.players.getD j spriteDefault)
        (t.players.getD i spriteDefault) = true →
      (Game.pairStep d i j (t, evs)).2 = evs ++ [(i, j, false)]) ∧
    (d.canEatSprite (t.players.getD i spriteDefault)
        (t.players.getD j spriteDefault) = false →
      d.canEatSprite (t.players.getD j spriteDefault)
        (t.players.getD i spriteDefault) = false →
      (Game.pairStep d i j (t, evs)).2 = evs) := by
  refine ⟨?_, ?_, ?_, ?_, ?_⟩
  · have hmem : (i, j) ∈ (allPairs s.players.length).filter
        (fun pr => pr.1 == i && pr.2 == j) :=
      List.mem_filter.mpr ⟨mem_allPairs s.players.length i j hij hj, by simp⟩
    have h1 := filter_pair_length_le_one i j _ (allPairs_nodup s.players.length)
    have h2 : 0 < ((allPairs s.players.length).filter
        (fun pr => pr.1 == i && pr.2 == j)).length :=
      List.length_pos.mpr (List.ne_nil_of_mem hmem)
    omega
  · obtain ⟨extra, heq, hsub⟩ :=
      foldPairs_events_sublist d (allPairs s.players.length) (s, [])
    have hev : (Game.spriteEatSpritePhaseEv d s).2 = extra := by
      rw [spriteEatSpritePhaseEv_eq_foldPairs, heq]
      simp
    rw [hev]
    unfold countPair
    have hlen : (extra.filter (fun e => e.1 == i && e.2.1 == j)).length =
        ((extra.map (fun e => (e.1, e.2.1))).filter
          (fun pr => pr.1 == i && pr.2 == j)).length := by
      rw [List.filter_map]
      simp only [List.length_map]
      rfl
    rw [hlen]
    calc ((extra.map (fun e => (e.1, e.2.1))).filter
            (fun pr => pr.1 == i && pr.2 == j)).length
        ≤ ((allPairs s.players.length).filter
            (fun pr => pr.1 == i && pr.2 == j)).length :=
          (hsub.filter _).length_le
      _ ≤ 1 := filter_pair_length_le_one i j _ (allPairs_nodup _)
  · intro hc
    simp only [Game.pairStep, hc, if_pos]
  · intro hc hc2
    simp only [Game.pairStep, hc, hc2]
    simp
  · intro hc hc2
    simp only [Game.pairStep, hc, hc2]
    simp

/-- C6 witness: two sprites where the first-checked direction fires. -/
theorem c6_pairwise_exclusive_witness :
    ((0 : Nat) < 1 ∧ 1 < c5State.players.length) ∧
    (((allPairs c5State.players.length).filter
        (fun pr => pr.1 == 0 && pr.2 == 1)).length = 1 ∧
      countPair (Game.spriteEatSpritePhaseEv c3Data c5State).2 0 1 ≤ 1 ∧
      (c3Data.canEatSprite (c5State.players.getD 0 spriteDefault)
          (c5State.players.getD 1 spriteDefault) = true →
        (Game.pairStep c3Data 0 1 (c5State, [])).2 = [] ++ [(0, 1, true)]) ∧
      (c3Data.canEatSprite (c5State.players.getD 0 spriteDefault)
          (c5State.players.getD 1 spriteDefault) = false →
        c3Data.canEatSprite (c5State.players.getD 1 spriteDefault)
          (c5State.players.getD 0 spriteDefault) = true →
        (Game.pairStep c3Data 0 1 (c5State, [])).2 = [] ++ [(0, 1, false)]) ∧
      (c3Data.canEatSprite (c5State.players.getD 0 spriteDefault)
          (c5State.players.getD 1 spriteDefault) = false →
        c3Data.canEatSprite (c5State.players.getD 1 spriteDefault)
          (c5State.players.getD 0 spriteDefault) = false →
        (Game.pairStep c3Data 0 1 (c5State, [])).2 = [])) :=
  ⟨⟨by decide, by decide⟩,
    c6_pairwise_exclusive c3Data c5State 0 1 c5State [] (by decide)
      (by decide)⟩
